import Mathlib

/-!
Verification of the `generic-tests` transformation engine.

This file gives a shallow embedding of the engine's components, translated
from the Rust sources:

* `signature.rs`: the lifetime resolver (`LifetimeCollector` and its
  substitution modes), the signature builders for parameter lists and
  return types, and `TestSignatureItem` with its rendering helpers;
* `extract.rs`: the signature catalog (`Tests`) with carrier deduplication,
  the generic-arity check and attribute classification;
* `expand.rs`: the tree walker (`Instantiator`) that populates
  `instantiate_tests` marker modules with forwarding functions;
* `options.rs`: attribute classification configuration.

Rust `HashSet`s of lifetimes are embedded as duplicate-free lists in
insertion order; the operations used by the code (`len`, `contains`,
`insert`) do not depend on iteration order.  Where the code *iterates* a
`HashSet` to render output, the iteration order is taken as an explicit
parameter ranging over the permutations of the set, since `std` hashing
does not fix it.  Machine-word counters (`usize`) are embedded as `Nat`:
they count syntax-tree nodes and cannot overflow a 64-bit word for any
representable input.  `syn::Error` values and `ErrorRecord` accumulators
are embedded as `List String` of diagnostic messages; `panic!`/`assert!`
aborts are embedded as a sticky `panicked` flag.
-/

/-- A Rust lifetime, identified by its identifier spelled without the
leading apostrophe (as in `syn::Lifetime::ident`); so `"static"` is the
static lifetime and `"_"` is the placeholder lifetime. -/
abbrev Lifetime := String

/-- A type expression, covering the forms that drive the lifetime
resolver in `signature.rs`: plain paths (single-segment, possibly with
lifetime arguments), generic type application, references with an
optional (possibly elided) lifetime, pairs, bare function pointer types
with an optional `for`-binder, trait objects/bounds with an optional
`for`-binder, and parenthesized (closure-style) generic arguments. -/
inductive Ty where
  | path (name : String) (ltArgs : List Lifetime)
  | app (base : Ty) (arg : Ty)
  | ref (lt : Option Lifetime) (elem : Ty)
  | tuple2 (fst : Ty) (snd : Ty)
  | bareFn (binder : Option (List Lifetime)) (inner : Ty)
  | traitObj (binder : Option (List Lifetime)) (inner : Ty)
  | parenArgs (inner : Ty)
  deriving DecidableEq

/-- `LifetimeSubstMode` from `signature.rs`. -/
inductive LifetimeSubstMode where
  | disabled
  | inputM
  | outputM (lt : Lifetime)
  | failM
  deriving DecidableEq

/-- Diagnostic message of `subst_placeholder_lifetime` in `Input`/`Fail` mode. -/
def placeholderMsg : String := "lifetime needs to be disambiguated"

/-- Diagnostic message of `visit_type_reference_mut` in `Fail` mode. -/
def elidedRefMsg : String := "elided reference lifetime needs to be disambiguated"

/-- `LifetimeCollector` from `signature.rs`.  The `lifetimes` and
`boundLifetimes` hash sets are embedded as duplicate-free lists in
insertion order.  `minted` is specification-only instrumentation
recording the synthetic lifetimes produced by `add_elided_lifetime`;
`panicked` records that the `assert!` in `add_elided_lifetime` failed
(at which point the real program aborts). -/
structure LifetimeCollector where
  lifetimes : List Lifetime
  substMode : LifetimeSubstMode
  boundLifetimes : List Lifetime
  errors : List String
  minted : List Lifetime
  panicked : Bool
  deriving DecidableEq

namespace LifetimeCollector

/-- `LifetimeCollector::new`. -/
def new (mode : LifetimeSubstMode) : LifetimeCollector :=
  { lifetimes := [], substMode := mode, boundLifetimes := [], errors := [],
    minted := [], panicked := false }

/-- `LifetimeCollector::collect_lifetime`: insert the lifetime into the
collected set unless it is already collected or locally bound. -/
def collectLifetime (c : LifetimeCollector) (lt : Lifetime) : LifetimeCollector :=
  if lt ∈ c.lifetimes ∨ lt ∈ c.boundLifetimes then c
  else { c with lifetimes := c.lifetimes ++ [lt] }

/-- `LifetimeCollector::add_elided_lifetime`: mint `'_generic_tests_k`
with `k` the current size of the collected set; the `assert!` that the
insertion was fresh becomes the `panicked` flag. -/
def addElidedLifetime (c : LifetimeCollector) : LifetimeCollector × Lifetime :=
  let symbol := "_generic_tests_" ++ Nat.repr c.lifetimes.length
  if symbol ∈ c.lifetimes then
    ({ c with panicked := true }, symbol)
  else
    ({ c with lifetimes := c.lifetimes ++ [symbol], minted := c.minted ++ [symbol] }, symbol)

/-- `LifetimeCollector::subst_placeholder_lifetime`. -/
def substPlaceholderLifetime (c : LifetimeCollector) (placeholder : Lifetime) :
    LifetimeCollector × Lifetime :=
  match c.substMode with
  | .disabled => (c, placeholder)
  | .outputM lt => (c.collectLifetime lt, lt)
  | .inputM => ({ c with errors := c.errors ++ [placeholderMsg] }, placeholder)
  | .failM => ({ c with errors := c.errors ++ [placeholderMsg] }, placeholder)

/-- `visit_lifetime_mut`: `'static` is never collected; the placeholder
`'_` is substituted; any other lifetime is collected. -/
def visitLifetime (c : LifetimeCollector) (lt : Lifetime) : LifetimeCollector × Lifetime :=
  if lt = "static" then (c, lt)
  else if lt = "_" then c.substPlaceholderLifetime lt
  else (c.collectLifetime lt, lt)

/-- Visit the lifetime arguments of a path in order. -/
def visitLifetimeList (c : LifetimeCollector) : List Lifetime → LifetimeCollector × List Lifetime
  | [] => (c, [])
  | lt :: rest =>
      let r1 := c.visitLifetime lt
      let r2 := r1.1.visitLifetimeList rest
      (r2.1, r1.2 :: r2.2)

/-- Extend the locally bound lifetime set with a binder's lifetimes
(`LifetimeBindingScope::new`). -/
def addBoundList (bound : List Lifetime) (binder : List Lifetime) : List Lifetime :=
  binder.foldl (fun acc b => if b ∈ acc then acc else acc ++ [b]) bound

/-- The `VisitMut` traversal of `LifetimeCollector` over a type
(`visit_type_mut`), combining `visit_lifetime_mut`,
`visit_type_reference_mut`, `visit_type_bare_fn_mut`,
`visit_trait_bound_mut` and `visit_parenthesized_generic_arguments_mut`.
Scope guards are translated as save/restore of `substMode`
(`LifetimeInferenceSuppression`) and of `boundLifetimes`
(`LifetimeBindingScope`, restoring only when a binder is present). -/
def visitType (c : LifetimeCollector) : Ty → LifetimeCollector × Ty
  | .path n lts =>
      let r := c.visitLifetimeList lts
      (r.1, .path n r.2)
  | .app base arg =>
      let r1 := c.visitType base
      let r2 := r1.1.visitType arg
      (r2.1, .app r1.2 r2.2)
  | .ref (some lt) elem =>
      let r1 := c.visitLifetime lt
      let r2 := r1.1.visitType elem
      (r2.1, .ref (some r1.2) r2.2)
  | .ref none elem =>
      match c.substMode with
      | .disabled =>
          let r := c.visitType elem
          (r.1, .ref none r.2)
      | .inputM =>
          let r1 := c.addElidedLifetime
          let r2 := r1.1.visitType elem
          (r2.1, .ref (some r1.2) r2.2)
      | .outputM lt =>
          let c1 := c.collectLifetime lt
          let r := c1.visitType elem
          (r.1, .ref (some lt) r.2)
      | .failM =>
          -- records the error and returns without descending into `elem`
          ({ c with errors := c.errors ++ [elidedRefMsg] }, .ref none elem)
  | .tuple2 a b =>
      let r1 := c.visitType a
      let r2 := r1.1.visitType b
      (r2.1, .tuple2 r1.2 r2.2)
  | .bareFn binder inner =>
      -- a function pointer type forms its own lifetime inference context
      let savedMode := c.substMode
      let c1 : LifetimeCollector := { c with substMode := .disabled }
      let savedBound := c1.boundLifetimes
      let c2 : LifetimeCollector := match binder with
        | some bs => { c1 with boundLifetimes := addBoundList c1.boundLifetimes bs }
        | none => c1
      let r := c2.visitType inner
      let c4 : LifetimeCollector := match binder with
        | some _ => { r.1 with boundLifetimes := savedBound }
        | none => r.1
      ({ c4 with substMode := savedMode }, .bareFn binder r.2)
  | .traitObj binder inner =>
      let savedBound := c.boundLifetimes
      let c1 : LifetimeCollector := match binder with
        | some bs => { c with boundLifetimes := addBoundList c.boundLifetimes bs }
        | none => c
      let r := c1.visitType inner
      let c3 : LifetimeCollector := match binder with
        | some _ => { r.1 with boundLifetimes := savedBound }
        | none => r.1
      (c3, .traitObj binder r.2)
  | .parenArgs inner =>
      -- a closure trait signature forms its own lifetime inference context
      let savedMode := c.substMode
      let c1 : LifetimeCollector := { c with substMode := .disabled }
      let r := c1.visitType inner
      ({ r.1 with substMode := savedMode }, .parenArgs r.2)

/-- `LifetimeCollector::validate`: fail iff any error was recorded,
otherwise yield the collected lifetime set. -/
def validate (c : LifetimeCollector) : Except (List String) (List Lifetime) :=
  if c.errors = [] then .ok c.lifetimes else .error c.errors

end LifetimeCollector

/-- An attribute, compared for classification purposes by its path only
(single-segment paths are spelled as their identifier, multi-segment
ones as in `tokio::test`).  `inner` is the `AttrStyle`; `instArgs` holds
the pre-parsed angle-bracketed argument tokens for an
`instantiate_tests` attribute. -/
structure Attr where
  path : String
  inner : Bool := false
  instArgs : List String := []
  deriving DecidableEq

/-- A function argument pattern (`syn::Pat`), restricted to the shapes
`signature.rs` distinguishes: a plain identifier pattern with its
`by_ref`/subpattern flags and pattern attributes, the wildcard pattern,
or anything else. -/
inductive PatS where
  | identPat (byRef : Bool) (subpat : Bool) (attrs : List Attr) (mutability : Bool)
      (ident : String)
  | wild
  | otherPat
  deriving DecidableEq

/-- A function argument (`syn::FnArg`): a receiver (`self`) or a typed
pattern with argument attributes. -/
inductive FnArgS where
  | receiver
  | typed (attrs : List Attr) (pat : PatS) (ty : Ty)
  deriving DecidableEq

/-- `TestFnArg` from `signature.rs`: the argument name, the type as
written (`arg_ty`) and the type with all lifetimes made explicit
(`field_ty`). -/
structure TestFnArgE where
  attrs : List Attr
  ident : String
  argTy : Ty
  fieldTy : Ty
  deriving DecidableEq

/-- `TestInputSignature`: the carrier ident minted by `extract.rs`, the
resolved lifetime set of the parameter list, and the processed
arguments. -/
structure TestInputSignatureE where
  ident : String
  lifetimes : List Lifetime
  args : List TestFnArgE
  deriving DecidableEq

/-- `TestReturnSignature`: the carrier ident minted by `extract.rs`, the
resolved lifetime set of the return type, and the resolved type. -/
structure TestReturnSignatureE where
  ident : String
  lifetimes : List Lifetime
  ty : Ty
  deriving DecidableEq

/-- Process one function argument of `TestInputSignature::try_build`:
validate the pattern and visit the argument type with the shared
collector (producing `field_ty`). -/
def buildFnArg (c : LifetimeCollector) :
    FnArgS → Except (List String) (LifetimeCollector × TestFnArgE)
  | .receiver => .error ["unexpected receiver argument in a test function"]
  | .typed attrs pat ty =>
      match pat with
      | .identPat byRef subpat patAttrs _mut ident =>
          if byRef ∨ subpat ∨ patAttrs ≠ [] then
            .error ["unsupported features in an argument pattern"]
          else
            let r := c.visitType ty
            .ok (r.1, { attrs := attrs, ident := ident, argTy := ty, fieldTy := r.2 })
      | .wild => .error ["wildcard pattern not allowed in generic test function input"]
      | .otherPat => .error ["unsupported argument pattern in generic test function input"]

/-- The argument loop of `TestInputSignature::try_build`: arguments are
processed left to right, stopping at the first pattern error. -/
def buildFnArgs (c : LifetimeCollector) :
    List FnArgS → Except (List String) (LifetimeCollector × List TestFnArgE)
  | [] => .ok (c, [])
  | arg :: rest =>
      match buildFnArg c arg with
      | .error e => .error e
      | .ok r1 =>
          match buildFnArgs r1.1 rest with
          | .error e => .error e
          | .ok r2 => .ok (r2.1, r1.2 :: r2.2)

/-- `TestInputSignature::try_build` (from `signature.rs`, with the
carrier ident argument added by the `extract.rs` caller): visit every
argument type in `Input` mode with one shared collector, then validate
the collector. -/
def TestInputSignatureE.tryBuild (ident : String) (inputs : List FnArgS) :
    Except (List String) TestInputSignatureE :=
  match buildFnArgs (LifetimeCollector.new .inputM) inputs with
  | .error e => .error e
  | .ok r =>
      match r.1.validate with
      | .error e => .error e
      | .ok lifetimes => .ok { ident := ident, lifetimes := lifetimes, args := r.2 }

/-- `TestReturnSignature::try_build` (from `signature.rs`, with the
carrier ident argument added by the `extract.rs` caller): pick `Output`
mode iff the input signature's resolved lifetime set has exactly one
member, otherwise `Fail` mode; then visit the return type and validate. -/
def TestReturnSignatureE.tryBuild (ident : String) (ty : Ty)
    (inputLifetimes : List Lifetime) : Except (List String) TestReturnSignatureE :=
  let substMode : LifetimeSubstMode :=
    match inputLifetimes with
    | [lt] => .outputM lt
    | _ => .failM
  let r := (LifetimeCollector.new substMode).visitType ty
  match r.1.validate with
  | .error e => .error e
  | .ok lifetimes => .ok { ident := ident, lifetimes := lifetimes, ty := r.2 }

/-- Substitute `lt` for the placeholder lifetime `'_`, leaving every
other lifetime (including `'static`) unchanged. -/
def substLt (lt : Lifetime) (x : Lifetime) : Lifetime :=
  if x = "_" then lt else x

/-- Specification of `Output(lt)` mode as a pure substitution: every
placeholder lifetime and every elided reference lifetime outside a
suppressed (function-pointer or closure-signature) context is replaced
by `lt`. -/
def substOut (lt : Lifetime) : Ty → Ty
  | .path n lts => .path n (lts.map (substLt lt))
  | .app base arg => .app (substOut lt base) (substOut lt arg)
  | .ref none elem => .ref (some lt) (substOut lt elem)
  | .ref (some x) elem => .ref (some (substLt lt x)) (substOut lt elem)
  | .tuple2 a b => .tuple2 (substOut lt a) (substOut lt b)
  | .bareFn binder inner => .bareFn binder inner
  | .traitObj binder inner => .traitObj binder (substOut lt inner)
  | .parenArgs inner => .parenArgs inner

/-- Whether a type contains a placeholder or elided lifetime in a
position where lifetime inference is active (i.e. outside
function-pointer and closure-signature contexts). -/
def hasAmbig : Ty → Bool
  | .path _ lts => lts.contains "_"
  | .app base arg => hasAmbig base || hasAmbig arg
  | .ref none _ => true
  | .ref (some x) elem => x == "_" || hasAmbig elem
  | .tuple2 a b => hasAmbig a || hasAmbig b
  | .bareFn _ _ => false
  | .traitObj _ inner => hasAmbig inner
  | .parenArgs _ => false

namespace LifetimeCollector

@[simp] theorem collect_substMode (c : LifetimeCollector) (lt : Lifetime) :
    (c.collectLifetime lt).substMode = c.substMode := by
  unfold collectLifetime; split <;> rfl

@[simp] theorem collect_bound (c : LifetimeCollector) (lt : Lifetime) :
    (c.collectLifetime lt).boundLifetimes = c.boundLifetimes := by
  unfold collectLifetime; split <;> rfl

@[simp] theorem collect_errors (c : LifetimeCollector) (lt : Lifetime) :
    (c.collectLifetime lt).errors = c.errors := by
  unfold collectLifetime; split <;> rfl

@[simp] theorem collect_panicked (c : LifetimeCollector) (lt : Lifetime) :
    (c.collectLifetime lt).panicked = c.panicked := by
  unfold collectLifetime; split <;> rfl

@[simp] theorem collect_minted (c : LifetimeCollector) (lt : Lifetime) :
    (c.collectLifetime lt).minted = c.minted := by
  unfold collectLifetime; split <;> rfl

@[simp] theorem addElided_substMode (c : LifetimeCollector) :
    (c.addElidedLifetime).1.substMode = c.substMode := by
  unfold addElidedLifetime
  by_cases h : ("_generic_tests_" ++ Nat.repr c.lifetimes.length) ∈ c.lifetimes <;> simp [h]

@[simp] theorem addElided_bound (c : LifetimeCollector) :
    (c.addElidedLifetime).1.boundLifetimes = c.boundLifetimes := by
  unfold addElidedLifetime
  by_cases h : ("_generic_tests_" ++ Nat.repr c.lifetimes.length) ∈ c.lifetimes <;> simp [h]

@[simp] theorem addElided_errors (c : LifetimeCollector) :
    (c.addElidedLifetime).1.errors = c.errors := by
  unfold addElidedLifetime
  by_cases h : ("_generic_tests_" ++ Nat.repr c.lifetimes.length) ∈ c.lifetimes <;> simp [h]

@[simp] theorem subst_substMode (c : LifetimeCollector) (p : Lifetime) :
    (c.substPlaceholderLifetime p).1.substMode = c.substMode := by
  unfold substPlaceholderLifetime
  cases h : c.substMode <;> simp [h]

@[simp] theorem subst_bound (c : LifetimeCollector) (p : Lifetime) :
    (c.substPlaceholderLifetime p).1.boundLifetimes = c.boundLifetimes := by
  unfold substPlaceholderLifetime
  cases h : c.substMode <;> simp [h]

@[simp] theorem subst_panicked (c : LifetimeCollector) (p : Lifetime) :
    (c.substPlaceholderLifetime p).1.panicked = c.panicked := by
  unfold substPlaceholderLifetime
  cases h : c.substMode <;> simp [h]

@[simp] theorem subst_minted (c : LifetimeCollector) (p : Lifetime) :
    (c.substPlaceholderLifetime p).1.minted = c.minted := by
  unfold substPlaceholderLifetime
  cases h : c.substMode <;> simp [h]

@[simp] theorem visitLifetime_substMode (c : LifetimeCollector) (lt : Lifetime) :
    (c.visitLifetime lt).1.substMode = c.substMode := by
  unfold visitLifetime; split_ifs <;> simp

@[simp] theorem visitLifetime_bound (c : LifetimeCollector) (lt : Lifetime) :
    (c.visitLifetime lt).1.boundLifetimes = c.boundLifetimes := by
  unfold visitLifetime; split_ifs <;> simp

@[simp] theorem visitLifetime_panicked (c : LifetimeCollector) (lt : Lifetime) :
    (c.visitLifetime lt).1.panicked = c.panicked := by
  unfold visitLifetime; split_ifs <;> simp

@[simp] theorem visitLifetime_minted (c : LifetimeCollector) (lt : Lifetime) :
    (c.visitLifetime lt).1.minted = c.minted := by
  unfold visitLifetime; split_ifs <;> simp

@[simp] theorem visitLifetimeList_substMode (c : LifetimeCollector) (lts : List Lifetime) :
    (c.visitLifetimeList lts).1.substMode = c.substMode := by
  induction lts generalizing c with
  | nil => rfl
  | cons lt rest ih => simp [visitLifetimeList, ih]

@[simp] theorem visitLifetimeList_bound (c : LifetimeCollector) (lts : List Lifetime) :
    (c.visitLifetimeList lts).1.boundLifetimes = c.boundLifetimes := by
  induction lts generalizing c with
  | nil => rfl
  | cons lt rest ih => simp [visitLifetimeList, ih]

@[simp] theorem visitLifetimeList_panicked (c : LifetimeCollector) (lts : List Lifetime) :
    (c.visitLifetimeList lts).1.panicked = c.panicked := by
  induction lts generalizing c with
  | nil => rfl
  | cons lt rest ih => simp [visitLifetimeList, ih]

@[simp] theorem visitLifetimeList_minted (c : LifetimeCollector) (lts : List Lifetime) :
    (c.visitLifetimeList lts).1.minted = c.minted := by
  induction lts generalizing c with
  | nil => rfl
  | cons lt rest ih => simp [visitLifetimeList, ih]

@[simp] theorem visitType_substMode (t : Ty) :
    ∀ c : LifetimeCollector, (c.visitType t).1.substMode = c.substMode := by
  induction t with intro c
  | path n lts => simp [visitType]
  | app base arg ih1 ih2 => simp [visitType, ih1, ih2]
  | ref lt elem ih =>
      cases lt with
      | some l => simp [visitType, ih]
      | none => cases h : c.substMode <;> simp [visitType, h, ih]
  | tuple2 a b iha ihb => simp [visitType, iha, ihb]
  | bareFn binder inner ih => cases binder <;> simp [visitType]
  | traitObj binder inner ih => cases binder <;> simp [visitType, ih]
  | parenArgs inner ih => simp [visitType]

@[simp] theorem visitType_bound (t : Ty) :
    ∀ c : LifetimeCollector, (c.visitType t).1.boundLifetimes = c.boundLifetimes := by
  induction t with intro c
  | path n lts => simp [visitType]
  | app base arg ih1 ih2 => simp [visitType, ih1, ih2]
  | ref lt elem ih =>
      cases lt with
      | some l => simp [visitType, ih]
      | none => cases h : c.substMode <;> simp [visitType, h, ih]
  | tuple2 a b iha ihb => simp [visitType, iha, ihb]
  | bareFn binder inner ih => cases binder <;> simp [visitType, ih]
  | traitObj binder inner ih => cases binder <;> simp [visitType, ih]
  | parenArgs inner ih => simp [visitType, ih]

end LifetimeCollector

namespace LifetimeCollector

/-- Error accumulation order: `e2` extends `e1` by zero or more
disambiguation diagnostics. -/
def errsLe (e1 e2 : List String) : Prop :=
  ∃ ext, e2 = e1 ++ ext ∧ ∀ m ∈ ext, m = placeholderMsg ∨ m = elidedRefMsg

theorem errsLe_refl (e : List String) : errsLe e e := ⟨[], by simp, by simp⟩

theorem errsLe_trans {a b c : List String} (h1 : errsLe a b) (h2 : errsLe b c) :
    errsLe a c := by
  obtain ⟨x, rfl, hx⟩ := h1
  obtain ⟨y, rfl, hy⟩ := h2
  refine ⟨x ++ y, by simp, ?_⟩
  intro m hm
  rcases List.mem_append.1 hm with h | h
  exacts [hx m h, hy m h]

theorem errsLe_len {a b : List String} (h : errsLe a b) : a.length ≤ b.length := by
  obtain ⟨x, rfl, -⟩ := h; simp

theorem errsLe_of_eq {a b : List String} (h : b = a) : errsLe a b := h ▸ errsLe_refl a

theorem subst_errsLe (c : LifetimeCollector) (p : Lifetime) :
    errsLe c.errors (c.substPlaceholderLifetime p).1.errors := by
  unfold substPlaceholderLifetime
  cases h : c.substMode
  · exact errsLe_refl _
  · exact ⟨[placeholderMsg], rfl, by simp⟩
  · exact errsLe_of_eq (collect_errors c _)
  · exact ⟨[placeholderMsg], rfl, by simp⟩

theorem visitLifetime_errsLe (c : LifetimeCollector) (lt : Lifetime) :
    errsLe c.errors (c.visitLifetime lt).1.errors := by
  unfold visitLifetime
  split_ifs
  · exact errsLe_refl _
  · exact subst_errsLe c lt
  · exact errsLe_of_eq (collect_errors c lt)

theorem visitLifetimeList_errsLe (c : LifetimeCollector) (lts : List Lifetime) :
    errsLe c.errors (c.visitLifetimeList lts).1.errors := by
  induction lts generalizing c with
  | nil => exact errsLe_refl _
  | cons lt rest ih =>
      exact errsLe_trans (visitLifetime_errsLe c lt) (ih (c.visitLifetime lt).1)

theorem visitType_errsLe (t : Ty) :
    ∀ c : LifetimeCollector, errsLe c.errors (c.visitType t).1.errors := by
  induction t with intro c
  | path n lts => exact visitLifetimeList_errsLe c lts
  | app base arg ih1 ih2 =>
      exact errsLe_trans (ih1 c) (ih2 (c.visitType base).1)
  | ref lt elem ih =>
      cases lt with
      | some l =>
          exact errsLe_trans (visitLifetime_errsLe c l) (ih (c.visitLifetime l).1)
      | none =>
          cases h : c.substMode with
          | disabled => simpa [visitType, h] using ih c
          | inputM =>
              simpa [visitType, h] using
                errsLe_trans (errsLe_of_eq (addElided_errors c)) (ih c.addElidedLifetime.1)
          | outputM lt =>
              simpa [visitType, h] using
                errsLe_trans (errsLe_of_eq (collect_errors c lt)) (ih (c.collectLifetime lt))
          | failM =>
              simp only [visitType, h]
              exact ⟨[elidedRefMsg], rfl, by simp⟩
  | tuple2 a b iha ihb =>
      exact errsLe_trans (iha c) (ihb (c.visitType a).1)
  | bareFn binder inner ih =>
      cases binder <;>
        simpa [visitType] using ih _
  | traitObj binder inner ih =>
      cases binder <;>
        simpa [visitType] using ih _
  | parenArgs inner ih =>
      simpa [visitType] using ih _

end LifetimeCollector

namespace LifetimeCollector

theorem visitLifetime_disabled {c : LifetimeCollector} (h : c.substMode = .disabled)
    (lt : Lifetime) :
    (c.visitLifetime lt).2 = lt ∧ (c.visitLifetime lt).1.errors = c.errors := by
  unfold visitLifetime substPlaceholderLifetime
  split_ifs <;> simp [h]

theorem visitLifetimeList_disabled {c : LifetimeCollector} (h : c.substMode = .disabled)
    (lts : List Lifetime) :
    (c.visitLifetimeList lts).2 = lts ∧ (c.visitLifetimeList lts).1.errors = c.errors := by
  induction lts generalizing c with
  | nil => exact ⟨rfl, rfl⟩
  | cons lt rest ih =>
      have h1 := visitLifetime_disabled h lt
      have hm : (c.visitLifetime lt).1.substMode = .disabled := by
        rw [visitLifetime_substMode, h]
      have h2 := ih hm
      simp [visitLifetimeList, h1.1, h1.2, h2.1, h2.2]

theorem visitType_disabled (t : Ty) :
    ∀ c : LifetimeCollector, c.substMode = .disabled →
      (c.visitType t).2 = t ∧ (c.visitType t).1.errors = c.errors := by
  induction t with intro c h
  | path n lts =>
      have := visitLifetimeList_disabled h lts
      simp [visitType, this.1, this.2]
  | app base arg ih1 ih2 =>
      have h1 := ih1 c h
      have hm : (c.visitType base).1.substMode = .disabled := by
        rw [visitType_substMode, h]
      have h2 := ih2 _ hm
      simp [visitType, h1.1, h1.2, h2.1, h2.2]
  | ref lt elem ih =>
      cases lt with
      | some l =>
          have h1 := visitLifetime_disabled h l
          have hm : (c.visitLifetime l).1.substMode = .disabled := by
            rw [visitLifetime_substMode, h]
          have h2 := ih _ hm
          simp [visitType, h1.1, h1.2, h2.1, h2.2]
      | none =>
          have h2 := ih c h
          simp [visitType, h, h2.1, h2.2]
  | tuple2 a b iha ihb =>
      have h1 := iha c h
      have hm : (c.visitType a).1.substMode = .disabled := by
        rw [visitType_substMode, h]
      have h2 := ihb _ hm
      simp [visitType, h1.1, h1.2, h2.1, h2.2]
  | bareFn binder inner ih =>
      cases binder with
      | none =>
          have h2 := ih { c with substMode := .disabled } rfl
          simp [visitType, h2.1, h2.2]
      | some bs =>
          have h2 := ih { c with substMode := .disabled, boundLifetimes := addBoundList c.boundLifetimes bs } rfl
          simp [visitType, h2.1, h2.2]
  | traitObj binder inner ih =>
      cases binder with
      | none =>
          have h2 := ih c h
          simp [visitType, h2.1, h2.2]
      | some bs =>
          have h2 := ih { c with boundLifetimes := addBoundList c.boundLifetimes bs }
            (by simpa using h)
          simp [visitType, h2.1, h2.2]
  | parenArgs inner ih =>
      have h2 := ih { c with substMode := .disabled } rfl
      simp [visitType, h2.1, h2.2]

theorem visitLifetime_output {c : LifetimeCollector} {lt : Lifetime}
    (h : c.substMode = .outputM lt) (x : Lifetime) :
    (c.visitLifetime x).2 = substLt lt x ∧ (c.visitLifetime x).1.errors = c.errors := by
  by_cases hs : x = "static"
  · subst hs
    simp [visitLifetime, substLt]
  · by_cases hx : x = "_"
    · subst hx
      simp [visitLifetime, substPlaceholderLifetime, h, substLt, hs]
    · simp [visitLifetime, substLt, hs, hx]

theorem visitLifetimeList_output {c : LifetimeCollector} {lt : Lifetime}
    (h : c.substMode = .outputM lt) (lts : List Lifetime) :
    (c.visitLifetimeList lts).2 = lts.map (substLt lt) ∧
      (c.visitLifetimeList lts).1.errors = c.errors := by
  induction lts generalizing c with
  | nil => exact ⟨rfl, rfl⟩
  | cons x rest ih =>
      have h1 := visitLifetime_output h x
      have hm : (c.visitLifetime x).1.substMode = .outputM lt := by
        rw [visitLifetime_substMode, h]
      have h2 := ih hm
      simp [visitLifetimeList, h1.1, h1.2, h2.1, h2.2]

theorem visitType_output (t : Ty) :
    ∀ (c : LifetimeCollector) (lt : Lifetime), c.substMode = .outputM lt →
      (c.visitType t).2 = substOut lt t ∧ (c.visitType t).1.errors = c.errors := by
  induction t with intro c lt h
  | path n lts =>
      have := visitLifetimeList_output h lts
      simp [visitType, substOut, this.1, this.2]
  | app base arg ih1 ih2 =>
      have h1 := ih1 c lt h
      have hm : (c.visitType base).1.substMode = .outputM lt := by
        rw [visitType_substMode, h]
      have h2 := ih2 _ lt hm
      simp [visitType, substOut, h1.1, h1.2, h2.1, h2.2]
  | ref l elem ih =>
      cases l with
      | some x =>
          have h1 := visitLifetime_output h x
          have hm : (c.visitLifetime x).1.substMode = .outputM lt := by
            rw [visitLifetime_substMode, h]
          have h2 := ih _ lt hm
          simp [visitType, substOut, h1.1, h1.2, h2.1, h2.2]
      | none =>
          have hm : (c.collectLifetime lt).substMode = .outputM lt := by
            rw [collect_substMode, h]
          have h2 := ih _ lt hm
          simp [visitType, substOut, h, h2.1, h2.2]
  | tuple2 a b iha ihb =>
      have h1 := iha c lt h
      have hm : (c.visitType a).1.substMode = .outputM lt := by
        rw [visitType_substMode, h]
      have h2 := ihb _ lt hm
      simp [visitType, substOut, h1.1, h1.2, h2.1, h2.2]
  | bareFn binder inner ih =>
      cases binder with
      | none =>
          have h2 := visitType_disabled inner { c with substMode := .disabled } rfl
          simp [visitType, substOut, h2.1, h2.2]
      | some bs =>
          have h2 := visitType_disabled inner { c with substMode := .disabled, boundLifetimes := addBoundList c.boundLifetimes bs } rfl
          simp [visitType, substOut, h2.1, h2.2]
  | traitObj binder inner ih =>
      cases binder with
      | none =>
          have h2 := ih c lt h
          simp [visitType, substOut, h2.1, h2.2]
      | some bs =>
          have h2 := ih { c with boundLifetimes := addBoundList c.boundLifetimes bs } lt
            (by simpa using h)
          simp [visitType, substOut, h2.1, h2.2]
  | parenArgs inner ih =>
      have h2 := visitType_disabled inner { c with substMode := .disabled } rfl
      simp [visitType, substOut, h2.1, h2.2]

end LifetimeCollector

namespace LifetimeCollector

theorem visitLifetime_fail_ph {c : LifetimeCollector} (h : c.substMode = .failM) :
    (c.visitLifetime "_").1.errors = c.errors ++ [placeholderMsg] := by
  simp [visitLifetime, substPlaceholderLifetime, h]

theorem visitLifetimeList_fail {c : LifetimeCollector} (h : c.substMode = .failM)
    {lts : List Lifetime} (hm : "_" ∈ lts) :
    c.errors.length < (c.visitLifetimeList lts).1.errors.length := by
  induction lts generalizing c with
  | nil => cases hm
  | cons x rest ih =>
      have hmode : (c.visitLifetime x).1.substMode = .failM := by
        rw [visitLifetime_substMode, h]
      rcases List.mem_cons.1 hm with hx | hmem
      · have h1 : c.errors.length < (c.visitLifetime x).1.errors.length := by
          rw [← hx, visitLifetime_fail_ph h]
          simp
        have h2 := errsLe_len (visitLifetimeList_errsLe (c.visitLifetime x).1 rest)
        simpa [visitLifetimeList] using lt_of_lt_of_le h1 h2
      · have h1 := errsLe_len (visitLifetime_errsLe c x)
        have h2 := ih hmode hmem
        simpa [visitLifetimeList] using lt_of_le_of_lt h1 h2

theorem visitType_fail (t : Ty) :
    ∀ c : LifetimeCollector, c.substMode = .failM → hasAmbig t = true →
      c.errors.length < (c.visitType t).1.errors.length := by
  induction t with intro c h ha
  | path n lts =>
      rw [hasAmbig, List.contains_eq_any_beq] at ha
      simp only [List.any_eq_true, beq_iff_eq] at ha
      obtain ⟨x, hx, rfl⟩ := ha
      have ha : "_" ∈ lts := hx
      simpa [visitType] using visitLifetimeList_fail h ha
  | app base arg ih1 ih2 =>
      simp only [hasAmbig, Bool.or_eq_true] at ha
      have hmode : (c.visitType base).1.substMode = .failM := by
        rw [visitType_substMode, h]
      rcases ha with ha | ha
      · have h1 := ih1 c h ha
        have h2 := errsLe_len (visitType_errsLe arg (c.visitType base).1)
        simpa [visitType] using lt_of_lt_of_le h1 h2
      · have h1 := errsLe_len (visitType_errsLe base c)
        have h2 := ih2 _ hmode ha
        simpa [visitType] using lt_of_le_of_lt h1 h2
  | ref l elem ih =>
      cases l with
      | some x =>
          simp only [hasAmbig, Bool.or_eq_true, beq_iff_eq] at ha
          have hmode : (c.visitLifetime x).1.substMode = .failM := by
            rw [visitLifetime_substMode, h]
          rcases ha with hx | ha
          · subst hx
            have h1 : c.errors.length < (c.visitLifetime "_").1.errors.length := by
              rw [visitLifetime_fail_ph h]; simp
            have h2 := errsLe_len (visitType_errsLe elem (c.visitLifetime "_").1)
            simpa [visitType] using lt_of_lt_of_le h1 h2
          · have h1 := errsLe_len (visitLifetime_errsLe c x)
            have h2 := ih _ hmode ha
            simpa [visitType] using lt_of_le_of_lt h1 h2
      | none =>
          simp [visitType, h]
  | tuple2 a b iha ihb =>
      simp only [hasAmbig, Bool.or_eq_true] at ha
      have hmode : (c.visitType a).1.substMode = .failM := by
        rw [visitType_substMode, h]
      rcases ha with ha | ha
      · have h1 := iha c h ha
        have h2 := errsLe_len (visitType_errsLe b (c.visitType a).1)
        simpa [visitType] using lt_of_lt_of_le h1 h2
      · have h1 := errsLe_len (visitType_errsLe a c)
        have h2 := ihb _ hmode ha
        simpa [visitType] using lt_of_le_of_lt h1 h2
  | bareFn binder inner ih => simp [hasAmbig] at ha
  | traitObj binder inner ih =>
      simp only [hasAmbig] at ha
      cases binder with
      | none => simpa [visitType] using ih c h ha
      | some bs =>
          have hmode :
              ({ c with boundLifetimes := addBoundList c.boundLifetimes bs } :
                LifetimeCollector).substMode = .failM := by simpa using h
          simpa [visitType] using ih _ hmode ha
  | parenArgs inner ih => simp [hasAmbig] at ha

end LifetimeCollector

open LifetimeCollector in
/-- Claim C2: for a test function whose input signature resolves to exactly
one lifetime, building the return signature always succeeds and substitutes
that same lifetime for every placeholder lifetime and every elided reference
lifetime (outside suppressed binder contexts) in the return type; when the
resolved input lifetime set has zero or at least two members and the return
type contains a placeholder or elided lifetime in an inference-active
position, building the return signature fails, and every diagnostic is one
of the two ambiguity ("needs to be disambiguated") errors. -/
theorem C2_return_lifetime_resolution :
    (∀ (ident : String) (ty : Ty) (lt : Lifetime),
      ∃ sig, TestReturnSignatureE.tryBuild ident ty [lt] = .ok sig ∧
        sig.ty = substOut lt ty) ∧
    (∀ (ident : String) (ty : Ty) (inputLifetimes : List Lifetime),
      inputLifetimes.length ≠ 1 → hasAmbig ty = true →
      ∃ msgs, TestReturnSignatureE.tryBuild ident ty inputLifetimes = .error msgs ∧
        msgs ≠ [] ∧ ∀ m ∈ msgs, m = placeholderMsg ∨ m = elidedRefMsg) := by
  constructor
  · intro ident ty lt
    have hout := visitType_output ty (LifetimeCollector.new (.outputM lt)) lt rfl
    refine ⟨{ ident := ident,
              lifetimes := ((LifetimeCollector.new (.outputM lt)).visitType ty).1.lifetimes,
              ty := substOut lt ty }, ?_, rfl⟩
    unfold TestReturnSignatureE.tryBuild LifetimeCollector.validate
    have herr : ((LifetimeCollector.new (.outputM lt)).visitType ty).1.errors = [] := by
      rw [hout.2]; rfl
    simp [herr, hout.1]
  · intro ident ty lts hlen ha
    have hmode : (match lts with
        | [lt] => LifetimeSubstMode.outputM lt
        | _ => LifetimeSubstMode.failM) = .failM := by
      match lts with
      | [] => rfl
      | [x] => exact absurd rfl hlen
      | x :: y :: r2 => rfl
    have hgrow := visitType_fail ty (LifetimeCollector.new .failM) rfl ha
    have hne : ((LifetimeCollector.new .failM).visitType ty).1.errors ≠ [] := by
      intro h0
      rw [h0] at hgrow
      simp [LifetimeCollector.new] at hgrow
    obtain ⟨ext, hext, hmem⟩ := visitType_errsLe ty (LifetimeCollector.new .failM)
    refine ⟨((LifetimeCollector.new .failM).visitType ty).1.errors, ?_, hne, ?_⟩
    · unfold TestReturnSignatureE.tryBuild LifetimeCollector.validate
      rw [hmode]
      simp [hne]
    · intro m hm
      rw [hext] at hm
      have : m ∈ ext := by simpa [LifetimeCollector.new] using hm
      exact hmem m this

/-- Witness for C2 at concrete inputs: with the single input lifetime
`'_generic_tests_0`, a return type `&'_ str` resolves successfully with the
placeholder substituted; with no input lifetimes, a return type `&str`
fails with a nonempty list of disambiguation errors. -/
theorem C2_return_lifetime_resolution_witness :
    (∃ sig, TestReturnSignatureE.tryBuild "R" (.ref (some "_") (.path "str" []))
        ["_generic_tests_0"] = .ok sig ∧
      sig.ty = substOut "_generic_tests_0" (.ref (some "_") (.path "str" []))) ∧
    (∃ msgs, TestReturnSignatureE.tryBuild "R" (.ref none (.path "str" [])) [] = .error msgs ∧
      msgs ≠ [] ∧ ∀ m ∈ msgs, m = placeholderMsg ∨ m = elidedRefMsg) :=
  ⟨C2_return_lifetime_resolution.1 "R" (.ref (some "_") (.path "str" [])) "_generic_tests_0",
   C2_return_lifetime_resolution.2 "R" (.ref none (.path "str" [])) [] (by decide) (by rfl)⟩

namespace LifetimeCollector

theorem addElided_panicked_sticky {c : LifetimeCollector} (h : c.panicked = true) :
    (c.addElidedLifetime).1.panicked = true := by
  unfold addElidedLifetime
  by_cases hm : ("_generic_tests_" ++ Nat.repr c.lifetimes.length) ∈ c.lifetimes <;> simp [hm, h]

theorem visitType_panicked_sticky (t : Ty) :
    ∀ c : LifetimeCollector, c.panicked = true → (c.visitType t).1.panicked = true := by
  induction t with intro c h
  | path n lts => simpa [visitType] using h
  | app base arg ih1 ih2 => simpa [visitType] using ih2 _ (ih1 c h)
  | ref l elem ih =>
      cases l with
      | some x =>
          have h1 : (c.visitLifetime x).1.panicked = true := by
            rw [visitLifetime_panicked]; exact h
          simpa [visitType] using ih _ h1
      | none =>
          cases hm : c.substMode with
          | disabled => simpa [visitType, hm] using ih c h
          | inputM =>
              simpa [visitType, hm] using ih _ (addElided_panicked_sticky h)
          | outputM lt =>
              have h1 : (c.collectLifetime lt).panicked = true := by
                rw [collect_panicked]; exact h
              simpa [visitType, hm] using ih _ h1
          | failM => simpa [visitType, hm] using h
  | tuple2 a b iha ihb => simpa [visitType] using ihb _ (iha c h)
  | bareFn binder inner ih =>
      cases binder with
      | none => simpa [visitType] using ih { c with substMode := .disabled } h
      | some bs =>
          simpa [visitType] using
            ih { c with substMode := .disabled, boundLifetimes := addBoundList c.boundLifetimes bs } h
  | traitObj binder inner ih =>
      cases binder with
      | none => simpa [visitType] using ih c h
      | some bs =>
          simpa [visitType] using
            ih { c with boundLifetimes := addBoundList c.boundLifetimes bs } h
  | parenArgs inner ih =>
      simpa [visitType] using ih { c with substMode := .disabled } h

theorem collect_lifetimes_grow {c : LifetimeCollector} {x : Lifetime} (lt : Lifetime)
    (h : x ∈ c.lifetimes) : x ∈ (c.collectLifetime lt).lifetimes := by
  unfold collectLifetime
  split
  · exact h
  · exact List.mem_append_left _ h

theorem addElided_lifetimes_grow {c : LifetimeCollector} {x : Lifetime}
    (h : x ∈ c.lifetimes) : x ∈ (c.addElidedLifetime).1.lifetimes := by
  unfold addElidedLifetime
  by_cases hm : ("_generic_tests_" ++ Nat.repr c.lifetimes.length) ∈ c.lifetimes <;>
    simp [hm, h]

theorem subst_lifetimes_grow {c : LifetimeCollector} {x : Lifetime} (p : Lifetime)
    (h : x ∈ c.lifetimes) : x ∈ (c.substPlaceholderLifetime p).1.lifetimes := by
  unfold substPlaceholderLifetime
  cases hm : c.substMode
  · exact h
  · exact h
  · exact collect_lifetimes_grow _ h
  · exact h

theorem visitLifetime_lifetimes_grow {c : LifetimeCollector} {x : Lifetime} (lt : Lifetime)
    (h : x ∈ c.lifetimes) : x ∈ (c.visitLifetime lt).1.lifetimes := by
  unfold visitLifetime
  split_ifs
  · exact h
  · exact subst_lifetimes_grow _ h
  · exact collect_lifetimes_grow _ h

theorem visitLifetimeList_lifetimes_grow {c : LifetimeCollector} {x : Lifetime}
    (lts : List Lifetime) (h : x ∈ c.lifetimes) :
    x ∈ (c.visitLifetimeList lts).1.lifetimes := by
  induction lts generalizing c with
  | nil => exact h
  | cons lt rest ih =>
      simpa [visitLifetimeList] using ih (visitLifetime_lifetimes_grow lt h)

end LifetimeCollector

/-- The invariant maintained by the visitor over the instrumentation
fields: minted synthetic names are pairwise distinct and all belong to
the collected lifetime set. -/
def mintInv (c : LifetimeCollector) : Prop :=
  c.minted.Nodup ∧ ∀ m ∈ c.minted, m ∈ c.lifetimes

namespace LifetimeCollector

theorem visitLifetime_mintInv {c : LifetimeCollector} (lt : Lifetime) (h : mintInv c) :
    mintInv (c.visitLifetime lt).1 := by
  refine ⟨by rw [visitLifetime_minted]; exact h.1, ?_⟩
  intro m hm
  rw [visitLifetime_minted] at hm
  exact visitLifetime_lifetimes_grow lt (h.2 m hm)

theorem visitLifetimeList_mintInv {c : LifetimeCollector} (lts : List Lifetime)
    (h : mintInv c) : mintInv (c.visitLifetimeList lts).1 := by
  refine ⟨by rw [visitLifetimeList_minted]; exact h.1, ?_⟩
  intro m hm
  rw [visitLifetimeList_minted] at hm
  exact visitLifetimeList_lifetimes_grow lts (h.2 m hm)

theorem addElided_mintInv {c : LifetimeCollector} (h : mintInv c)
    (hp : (c.addElidedLifetime).1.panicked = false) : mintInv (c.addElidedLifetime).1 := by
  unfold addElidedLifetime at hp ⊢
  by_cases hm : ("_generic_tests_" ++ Nat.repr c.lifetimes.length) ∈ c.lifetimes
  · simp [hm] at hp
  · simp only [hm, if_false]
    constructor
    · refine List.Nodup.append h.1 (by simp) ?_
      intro a ha hb
      rw [List.mem_singleton] at hb
      exact hm (hb ▸ h.2 a ha)
    · intro m hmem
      rcases List.mem_append.1 hmem with hmem | hmem
      · exact List.mem_append_left _ (h.2 m hmem)
      · exact List.mem_append_right _ hmem

theorem visitType_mintInv (t : Ty) :
    ∀ c : LifetimeCollector, mintInv c → (c.visitType t).1.panicked = false →
      mintInv (c.visitType t).1 := by
  induction t with intro c h hp
  | path n lts => simpa [visitType] using visitLifetimeList_mintInv lts h
  | app base arg ih1 ih2 =>
      simp only [visitType] at hp ⊢
      have hp1 : (c.visitType base).1.panicked = false := by
        by_contra hc
        rw [Bool.not_eq_false] at hc
        rw [visitType_panicked_sticky arg _ hc] at hp
        cases hp
      exact ih2 _ (ih1 c h hp1) hp
  | ref l elem ih =>
      cases l with
      | some x =>
          simp only [visitType] at hp ⊢
          exact ih _ (visitLifetime_mintInv x h) hp
      | none =>
          cases hm : c.substMode with
          | disabled =>
              simp only [visitType, hm] at hp ⊢
              exact ih _ h hp
          | inputM =>
              simp only [visitType, hm] at hp ⊢
              have hp1 : (c.addElidedLifetime).1.panicked = false := by
                by_contra hc
                rw [Bool.not_eq_false] at hc
                rw [visitType_panicked_sticky elem _ hc] at hp
                cases hp
              exact ih _ (addElided_mintInv h hp1) hp
          | outputM lt =>
              simp only [visitType, hm] at hp ⊢
              refine ih _ ⟨by rw [collect_minted]; exact h.1, ?_⟩ hp
              intro m hmem
              rw [collect_minted] at hmem
              exact collect_lifetimes_grow _ (h.2 m hmem)
          | failM =>
              simp only [visitType, hm] at hp ⊢
              exact h
  | tuple2 a b iha ihb =>
      simp only [visitType] at hp ⊢
      have hp1 : (c.visitType a).1.panicked = false := by
        by_contra hc
        rw [Bool.not_eq_false] at hc
        rw [visitType_panicked_sticky b _ hc] at hp
        cases hp
      exact ihb _ (iha c h hp1) hp
  | bareFn binder inner ih =>
      cases binder with
      | none =>
          simp only [visitType] at hp ⊢
          exact ih { c with substMode := .disabled } h hp
      | some bs =>
          simp only [visitType] at hp ⊢
          exact ih
            { c with substMode := .disabled, boundLifetimes := addBoundList c.boundLifetimes bs }
            h hp
  | traitObj binder inner ih =>
      cases binder with
      | none =>
          simp only [visitType] at hp ⊢
          exact ih c h hp
      | some bs =>
          simp only [visitType] at hp ⊢
          exact ih { c with boundLifetimes := addBoundList c.boundLifetimes bs } h hp
  | parenArgs inner ih =>
      simp only [visitType] at hp ⊢
      exact ih { c with substMode := .disabled } h hp

end LifetimeCollector

/-- The lifetime-collection effect of `TestInputSignature::try_build`
over the list of argument types: one shared collector in `Input` mode
visits every argument type in order. -/
def visitTypes (c : LifetimeCollector) : List Ty → LifetimeCollector
  | [] => c
  | t :: rest => visitTypes (c.visitType t).1 rest

/-- The collector state after processing an input signature whose
argument types are `tys`. -/
def collectInputTypes (tys : List Ty) : LifetimeCollector :=
  visitTypes (LifetimeCollector.new .inputM) tys

theorem visitTypes_panicked_sticky (tys : List Ty) :
    ∀ c : LifetimeCollector, c.panicked = true → (visitTypes c tys).panicked = true := by
  induction tys with intro c h
  | nil => exact h
  | cons t rest ih =>
      exact ih _ (LifetimeCollector.visitType_panicked_sticky t c h)

theorem visitTypes_mintInv (tys : List Ty) :
    ∀ c : LifetimeCollector, mintInv c → (visitTypes c tys).panicked = false →
      mintInv (visitTypes c tys) := by
  induction tys with intro c h hp
  | nil => exact h
  | cons t rest ih =>
      simp only [visitTypes] at hp ⊢
      have hp1 : (c.visitType t).1.panicked = false := by
        by_contra hc
        rw [Bool.not_eq_false] at hc
        rw [visitTypes_panicked_sticky rest _ hc] at hp
        cases hp
      exact ih _ (LifetimeCollector.visitType_mintInv t c h hp1) hp

/-- Claim C10: `add_elided_lifetime` mints the reserved name
`'_generic_tests_k` with `k` the current size of the collected lifetime
set (illustrated by the first conjunct: two elided input references get
indices 0 and 1); an input signature that already uses a colliding
`'_generic_tests_*` lifetime makes the resolver panic via the freshness
assertion with no recoverable diagnostic recorded (second conjunct:
`x: &'_generic_tests_1 u8, y: &u8` trips the assertion while the error
record stays empty); and on every input that does not trip the
assertion, the minted synthetic names are pairwise distinct and all
belong to the signature item's collected lifetime set. -/
theorem C10_elided_lifetime_minting :
    ((collectInputTypes [.ref none (.path "u8" []), .ref none (.path "u8" [])]).lifetimes
        = ["_generic_tests_0", "_generic_tests_1"]) ∧
    ((collectInputTypes [.ref (some "_generic_tests_1") (.path "u8" []),
        .ref none (.path "u8" [])]).panicked = true ∧
      (collectInputTypes [.ref (some "_generic_tests_1") (.path "u8" []),
        .ref none (.path "u8" [])]).errors = []) ∧
    (∀ tys : List Ty, (collectInputTypes tys).panicked = false →
      (collectInputTypes tys).minted.Nodup ∧
        ∀ m ∈ (collectInputTypes tys).minted, m ∈ (collectInputTypes tys).lifetimes) := by
  refine ⟨by decide, ⟨by decide, by decide⟩, ?_⟩
  intro tys hp
  exact visitTypes_mintInv tys (LifetimeCollector.new .inputM) ⟨by simp [LifetimeCollector.new], by simp [LifetimeCollector.new]⟩ hp

/-- Witness for C10 at a concrete input: a single elided reference does
not trip the assertion and its minted name list is duplicate-free. -/
theorem C10_elided_lifetime_minting_witness :
    (collectInputTypes [.ref none (.path "u8" [])]).panicked = false ∧
      (collectInputTypes [.ref none (.path "u8" [])]).minted.Nodup :=
  ⟨by decide,
   (C10_elided_lifetime_minting.2.2 [.ref none (.path "u8" [])] (by decide)).1⟩

/-- `TestSignatureItem` from `signature.rs`: the resolved lifetime set of a
signature item.  In the source this is a `HashSet<Lifetime>`; its contents
are embedded as a duplicate-free list, and every place that *iterates* the
set takes the iteration order as an explicit argument (a permutation of the
contents), since `std` hashing fixes the order only within one run. -/
structure TestSignatureItemE where
  lifetimes : List Lifetime
  deriving DecidableEq

/-- `TestSignatureItem::path_segment` rendered under set-iteration order
`e`: the bare name when the lifetime set is empty, otherwise the name
followed by the angle-bracketed, comma-separated lifetime list in
iteration order (lifetimes printed by their identifier). -/
def pathSegmentRender (e : List Lifetime) (name : String) : String :=
  if e.isEmpty then name
  else name ++ "<" ++ String.intercalate ", " e ++ ">"

/-- `TestSignatureItem::lifetime_generics` rendered under set-iteration
order `e`. -/
def lifetimeGenericsRender (e : List Lifetime) : String :=
  "<" ++ String.intercalate ", " e ++ ">"

/-- Token-level view of `path_segment`: the carrier name followed by the
lifetime arguments in iteration order. -/
def pathSegmentTokens (e : List Lifetime) (name : String) : List String :=
  name :: e

/-- Claim C1 counterexample: the transformation's output is *not*
byte-identical across runs.  The two-element lifetime set `{'a, 'b}` admits
two set-iteration orders (the two lists below are permutations of each
other, i.e. the same `HashSet` contents), and `path_segment` renders them
to different byte strings; since `std::collections::HashSet` iteration
order is not fixed across runs, two runs can disagree on these bytes. -/
theorem C1_determinism_counterexample :
    List.Perm ["a", "b"] ["b", "a"] ∧
    pathSegmentRender ["a", "b"] "_generic_tests_Args0" ≠
      pathSegmentRender ["b", "a"] "_generic_tests_Args0" := by
  constructor
  · decide
  · decide

/-- Claim C1 (amended): given the same input and configuration, two runs
agree up to the set-iteration order of each signature item's lifetime set:
the rendered path segment of a carrier is the same multiset of tokens with
the same carrier name in head position, and the synthetic name minted for
an elided lifetime depends only on the size of the collected set, so all
synthesized *names* (carrier names and synthetic lifetime names) are
identical across runs; byte-identity of the rendered output holds whenever
the iteration orders coincide (in particular whenever every signature item
has at most one lifetime), but not in general. -/
theorem C1_determinism_up_to_order (name : String) (e1 e2 : List Lifetime)
    (c1 c2 : LifetimeCollector) (h : e1.Perm e2)
    (hc : c1.lifetimes.Perm c2.lifetimes) :
    (pathSegmentTokens e1 name).Perm (pathSegmentTokens e2 name) ∧
    (c1.addElidedLifetime).2 = (c2.addElidedLifetime).2 := by
  constructor
  · exact List.Perm.cons name h
  · have hlen : c1.lifetimes.length = c2.lifetimes.length := hc.length_eq
    have hn : ∀ c : LifetimeCollector,
        (c.addElidedLifetime).2 = "_generic_tests_" ++ Nat.repr c.lifetimes.length := by
      intro c
      unfold LifetimeCollector.addElidedLifetime
      by_cases hm : ("_generic_tests_" ++ Nat.repr c.lifetimes.length) ∈ c.lifetimes <;>
        simp [hm]
    rw [hn c1, hn c2, hlen]

/-- Witness for C1 (amended) at concrete inputs: the two iteration orders
of `{'a, 'b}` yield permuted token lists, and two collectors holding the
same set in different orders mint the same synthetic name. -/
theorem C1_determinism_up_to_order_witness :
    (pathSegmentTokens ["a", "b"] "X").Perm (pathSegmentTokens ["b", "a"] "X") ∧
    ({ LifetimeCollector.new .inputM with lifetimes := ["a", "b"] }.addElidedLifetime).2 =
      ({ LifetimeCollector.new .inputM with lifetimes := ["b", "a"] }.addElidedLifetime).2 :=
  C1_determinism_up_to_order "X" ["a", "b"] ["b", "a"] _ _ (by decide) (by decide)

/-! Injectivity of the decimal rendering `Nat.repr`, used to show that
counter-derived carrier names are pairwise distinct. -/

/-- The decimal digit characters of `n`, most significant first. -/
def natChars (n : Nat) : List Char :=
  if n < 10 then [Nat.digitChar n]
  else natChars (n / 10) ++ [Nat.digitChar (n % 10)]
decreasing_by exact Nat.div_lt_self (by omega) (by omega)

theorem toDigitsCore_eq_natChars (fuel : Nat) :
    ∀ (n : Nat) (ds : List Char), n < fuel →
      Nat.toDigitsCore 10 fuel n ds = natChars n ++ ds := by
  induction fuel with
  | zero => intro n ds h; cases h
  | succ f ih =>
      intro n ds h
      by_cases h0 : n / 10 = 0
      · have hn : n < 10 := (Nat.div_eq_zero_iff (by omega)).1 h0
        simp only [Nat.toDigitsCore]
        rw [if_pos h0, natChars, if_pos hn, Nat.mod_eq_of_lt hn]
        rfl
      · have hn : ¬n < 10 := fun hlt => h0 (Nat.div_eq_of_lt hlt)
        have hpos : 0 < n := by
          by_contra hz
          exact hn (by omega)
        have hdivlt : n / 10 < n := Nat.div_lt_self hpos (by omega)
        simp only [Nat.toDigitsCore]
        rw [if_neg h0]
        rw [ih (n / 10) _ (by omega)]
        conv_rhs => rw [natChars, if_neg hn]
        simp

theorem repr_eq_natChars (n : Nat) : Nat.repr n = (natChars n).asString := by
  unfold Nat.repr Nat.toDigits
  rw [toDigitsCore_eq_natChars (n + 1) n [] (Nat.lt_succ_self n)]
  simp

/-- Read a decimal digit list back into a number. -/
def parseDigits (a : Nat) (l : List Char) : Nat :=
  l.foldl (fun acc ch => acc * 10 + (ch.toNat - 48)) a

theorem digitChar_val {d : Nat} (h : d < 10) : (Nat.digitChar d).toNat - 48 = d := by
  interval_cases d <;> rfl

theorem parseDigits_natChars (n : Nat) :
    ∀ a : Nat, parseDigits a (natChars n) = a * 10 ^ (natChars n).length + n := by
  induction n using Nat.strong_induction_on with
  | _ n ih =>
      intro a
      by_cases hn : n < 10
      · rw [natChars, if_pos hn]
        simp [parseDigits, digitChar_val hn, Nat.mod_eq_of_lt hn]
      · have hpos : 0 < n := by omega
        have hdivlt : n / 10 < n := Nat.div_lt_self hpos (by omega)
        rw [natChars, if_neg hn]
        unfold parseDigits
        rw [List.foldl_append]
        have hrec := ih (n / 10) hdivlt a
        unfold parseDigits at hrec
        rw [hrec]
        have hmod : n % 10 < 10 := Nat.mod_lt n (by omega)
        have hdm : 10 * (n / 10) + n % 10 = n := Nat.div_add_mod n 10
        simp only [List.foldl_cons, List.foldl_nil, digitChar_val hmod, List.length_append,
          List.length_cons, List.length_nil, Nat.zero_add, Nat.pow_succ]
        calc (a * 10 ^ (natChars (n / 10)).length + n / 10) * 10 + n % 10
            = a * (10 ^ (natChars (n / 10)).length * 10) + (10 * (n / 10) + n % 10) := by ring
          _ = a * (10 ^ (natChars (n / 10)).length * 10) + n := by rw [hdm]

theorem natChars_inj {m n : Nat} (h : natChars m = natChars n) : m = n := by
  have hm := parseDigits_natChars m 0
  have hn' := parseDigits_natChars n 0
  rw [h] at hm
  rw [hm] at hn'
  simpa using hn'

theorem nat_repr_inj {m n : Nat} (h : Nat.repr m = Nat.repr n) : m = n := by
  rw [repr_eq_natChars, repr_eq_natChars] at h
  have hd : natChars m = natChars n := by
    have := congrArg String.data h
    simpa [List.asString] using this
  exact natChars_inj hd

/-! The extract stage: attribute classification configuration
(`options.rs`), signature validation, the generic-arity check and the
signature catalog (`extract.rs`). -/

/-- `DEFAULT_TEST_ATTRS` from `options.rs`. -/
def DEFAULT_TEST_ATTRS : List String := ["test", "ignore", "should_panic", "bench"]

/-- `DEFAULT_COPIED_ATTRS` from `options.rs`. -/
def DEFAULT_COPIED_ATTRS : List String := ["cfg"]

/-- `MacroOpts` from `options.rs`: the unit-wide marker-attribute and
mirrored-attribute path sets. -/
structure MacroOpts where
  instAttrs : List String
  copyAttrs : List String
  deriving DecidableEq

/-- The default classification configuration. -/
def MacroOpts.default : MacroOpts :=
  { instAttrs := DEFAULT_TEST_ATTRS, copyAttrs := DEFAULT_COPIED_ATTRS }

/-- `is_test_attr`: an attribute is a marker iff its path is in the
configured marker set. -/
def MacroOpts.isTestAttr (opts : MacroOpts) (attr : Attr) : Bool :=
  opts.instAttrs.contains attr.path

/-- `is_copied_attr`: an attribute is mirrored iff its path is in the
configured mirrored set. -/
def MacroOpts.isCopiedAttr (opts : MacroOpts) (attr : Attr) : Bool :=
  opts.copyAttrs.contains attr.path

/-- A generic parameter (`syn::GenericParam`): a lifetime parameter with
its bounds, a type parameter, or a const parameter. -/
inductive GenericParamS where
  | lifetimeP (lt : Lifetime) (bounds : List Lifetime)
  | typeP (ident : String)
  | constP (ident : String)
  deriving DecidableEq

/-- A `where`-clause predicate, as far as `filter_lifetime_params`
inspects it. -/
inductive WherePredS where
  | lifetimeW (lt : Lifetime) (bounds : List Lifetime)
  | typeW
  | eqW
  deriving DecidableEq

/-- `syn::Generics`: the parameter list and the `where` clause. -/
structure GenericsS where
  params : List GenericParamS := []
  wherePreds : List WherePredS := []
  deriving DecidableEq

/-- `syn::Signature`, restricted to the fields the engine inspects. -/
structure SigS where
  constness : Bool := false
  asyncness : Bool := false
  unsafety : Bool := false
  abi : Bool := false
  variadic : Bool := false
  ident : String
  generics : GenericsS := {}
  inputs : List FnArgS := []
  output : Option Ty := none
  deriving DecidableEq

/-- Descriptor of a generated forwarding-function body: the number of
`super::` steps back to the root, the callee name, the concrete generic
arguments, the forwarded argument names, and whether the call result is
awaited. -/
structure BodyX where
  supers : Nat
  callee : String
  genericArgs : List String
  argNames : List String
  awaited : Bool := false
  deriving DecidableEq

/-- `syn::ItemFn`: attributes and signature; the body is opaque for
parsed functions (`none`) and a forwarding-call descriptor for generated
ones. -/
structure ItemFnS where
  attrs : List Attr := []
  sig : SigS
  body : Option BodyX := none
  deriving DecidableEq

/-- `extract_test_attrs`'s removal loop: split the attribute list into
the marker attributes (in order) and the remaining attributes (in
order), exactly as the in-place `remove` loop does. -/
def removeTestAttrs (opts : MacroOpts) : List Attr → List Attr × List Attr
  | [] => ([], [])
  | a :: rest =>
      let r := removeTestAttrs opts rest
      if opts.isTestAttr a then (a :: r.1, r.2) else (r.1, a :: r.2)

/-- `extract_test_attrs` from `extract.rs`: remove every marker
attribute from the function (mutating its attribute list); if any marker
was found, append copies of the mirrored attributes still on the
function.  Returns the collected attributes and the mutated function. -/
def extractTestAttrs (opts : MacroOpts) (item : ItemFnS) : List Attr × ItemFnS :=
  let r := removeTestAttrs opts item.attrs
  let testAttrs := if r.1.isEmpty then r.1 else r.1 ++ r.2.filter (fun a => opts.isCopiedAttr a)
  (testAttrs, { item with attrs := r.2 })

/-- The single-segment path identifiers occurring in a type, in visit
order, as seen by `GenericParamCatcher` (the embedding's paths are
single-segment). -/
def pathNames : Ty → List String
  | .path n _ => [n]
  | .app base arg => pathNames base ++ pathNames arg
  | .ref _ elem => pathNames elem
  | .tuple2 a b => pathNames a ++ pathNames b
  | .bareFn _ inner => pathNames inner
  | .traitObj _ inner => pathNames inner
  | .parenArgs inner => pathNames inner

/-- The type and const generic parameter identifiers of a generics
clause (`GenericParamCatcher::new`). -/
def typeConstParamNames (g : GenericsS) : List String :=
  g.params.foldr
    (fun p acc =>
      match p with
      | .typeP i => i :: acc
      | .constP i => i :: acc
      | .lifetimeP _ _ => acc)
    []

/-- The types visited by `validate`'s `GenericParamCatcher` pass: every
argument type, then the return type. -/
def sigVisitedTys (sig : SigS) : List Ty :=
  (sig.inputs.foldr
    (fun a acc =>
      match a with
      | .typed _ _ ty => ty :: acc
      | .receiver => acc)
    []) ++
  (match sig.output with
   | none => []
   | some ty => [ty])

/-- Diagnostic of `GenericParamCatcher`. -/
def genericParamMsg : String :=
  "use of generic parameters in test function signatures is not supported"

/-- `validate` from `signature.rs`: reject `const` functions, foreign
ABIs and variadics, then report one error per use of a type/const
generic parameter in the signature. -/
def validateSig (sig : SigS) : Except (List String) Unit :=
  if sig.constness then .error ["generic test function cannot be const"]
  else if sig.abi then .error ["extern ABI is not supported in a generic test function"]
  else if sig.variadic then
    .error ["variadic arguments are not supported in a generic test function"]
  else
    let names := typeConstParamNames sig.generics
    let offenders :=
      ((sigVisitedTys sig).foldr (fun t acc => pathNames t ++ acc) []).filter
        (fun n => names.contains n)
    if offenders.isEmpty then .ok () else .error (offenders.map (fun _ => genericParamMsg))

/-- The filter of `generic_arity`: type and const parameters count,
lifetime parameters do not. -/
def isTypeConstParam : GenericParamS → Bool
  | .typeP _ => true
  | .constP _ => true
  | .lifetimeP _ _ => false

/-- `generic_arity` from `extract.rs`: the number of type and const
generic parameters; lifetime parameters are excluded. -/
def genericArity (g : GenericsS) : Nat :=
  (g.params.filter isTypeConstParam).length

/-- Diagnostic for bounded lifetimes. -/
def lifetimeBoundsMsg : String := "lifetime bounds are not supported in generic test functions"

/-- The `where`-clause half of `filter_lifetime_params`: a used lifetime
with bounds is an error. -/
def checkWherePreds (used : List Lifetime) : List WherePredS → Except (List String) Unit
  | [] => .ok ()
  | .lifetimeW lt bounds :: rest =>
      if used.contains lt ∧ ¬bounds.isEmpty then .error [lifetimeBoundsMsg]
      else checkWherePreds used rest
  | .typeW :: rest => checkWherePreds used rest
  | .eqW :: rest => checkWherePreds used rest

/-- The parameter half of `filter_lifetime_params`: keep the lifetime
parameters whose lifetime is used, rejecting bounded ones. -/
def collectLifetimeParams (used : List Lifetime) :
    List GenericParamS → Except (List String) (List Lifetime)
  | [] => .ok []
  | .lifetimeP lt bounds :: rest =>
      if used.contains lt then
        if bounds.isEmpty then
          match collectLifetimeParams used rest with
          | .error e => .error e
          | .ok ls => .ok (lt :: ls)
        else .error [lifetimeBoundsMsg]
      else collectLifetimeParams used rest
  | .typeP _ :: rest => collectLifetimeParams used rest
  | .constP _ :: rest => collectLifetimeParams used rest

/-- `filter_lifetime_params` from `extract.rs`: check the `where`
clause, then filter the declared lifetime parameters down to the used
ones. -/
def filterLifetimeParams (g : GenericsS) (used : List Lifetime) :
    Except (List String) (List Lifetime) :=
  match checkWherePreds used g.wherePreds with
  | .error e => .error e
  | .ok _ => collectLifetimeParams used g.params

/-- `TestFn` from `extract.rs` (lines 26-34): the collected data of one
test function. -/
structure TestFnE where
  test_attrs : List Attr
  asyncness : Bool
  unsafety : Bool
  ident : String
  lifetime_params : List Lifetime
  inputs : List FnArgS
  output : Option Ty
  deriving DecidableEq

/-- `Tests` from `extract.rs`: the test-function list and the two
carrier catalogs.  The `HashMap`s keyed by parameter list and return
type are embedded as association lists in insertion order (iteration
order of the maps is never observed by the engine). -/
structure TestsE where
  test_fns : List TestFnE := []
  input_sigs : List (List FnArgS × TestInputSignatureE) := []
  return_sigs : List (Ty × TestReturnSignatureE) := []
  deriving DecidableEq

/-- Association-list lookup by structural key equality (`HashMap::get`). -/
def alookup {α β : Type} [DecidableEq α] : List (α × β) → α → Option β
  | [], _ => none
  | e :: rest, key => if key = e.1 then some e.2 else alookup rest key

/-- `HashSet::union(..).cloned().collect()`: the left set extended by
the members of the right set not already present. -/
def ltUnion (a b : List Lifetime) : List Lifetime :=
  a ++ b.filter (fun x => !(a.contains x))

/-- The carrier name minted for the `i`-th distinct parameter-list
shape. -/
def argsName (i : Nat) : String := "_generic_tests_Args" ++ Nat.repr i

/-- The carrier name minted for the `i`-th distinct return-type shape. -/
def retName (i : Nat) : String := "_generic_tests_Ret" ++ Nat.repr i

/-- The input-signature registration step of `Tests::try_extract_fn`
(`extract.rs` lines 82-95): an empty parameter list is not registered; a
known shape reuses the catalog entry; a new shape is built under a fresh
counter-derived carrier name and recorded. -/
def TestsE.registerInput (t : TestsE) (inputs : List FnArgS) :
    Except (List String) (TestsE × List Lifetime) :=
  if inputs.isEmpty then .ok (t, [])
  else
    match alookup t.input_sigs inputs with
    | some sig => .ok (t, sig.lifetimes)
    | none =>
        match TestInputSignatureE.tryBuild (argsName t.input_sigs.length) inputs with
        | .error e => .error e
        | .ok sig => .ok ({ t with input_sigs := t.input_sigs ++ [(inputs, sig)] }, sig.lifetimes)

/-- The return-signature registration step of `Tests::try_extract_fn`
(`extract.rs` lines 96-117): no return type adds nothing; a known shape
unions in its lifetimes; a new shape is built under a fresh
counter-derived carrier name (the input lifetime set is looked up again
from the catalog; a missing entry, which the control flow rules out for
nonempty inputs, behaves as the empty set, matching the `Option`
argument of the source's `try_build`). -/
def TestsE.registerReturn (t : TestsE) (inputs : List FnArgS) (lifetimes : List Lifetime) :
    Option Ty → Except (List String) (TestsE × List Lifetime)
  | none => .ok (t, lifetimes)
  | some ty =>
      match alookup t.return_sigs ty with
      | some sig => .ok (t, ltUnion lifetimes sig.lifetimes)
      | none =>
          match TestReturnSignatureE.tryBuild (retName t.return_sigs.length) ty
              (if inputs.isEmpty then []
               else
                 match alookup t.input_sigs inputs with
                 | some sig => sig.lifetimes
                 | none => []) with
          | .error e => .error e
          | .ok sig =>
              .ok ({ t with return_sigs := t.return_sigs ++ [(ty, sig)] },
                ltUnion lifetimes sig.lifetimes)

/-- `Tests::try_extract_fn` from `extract.rs` (lines 75-129): classify
by attributes (mutating the attribute list), validate the signature,
register the parameter-list and return-type shapes in the catalogs, and
record the test function.  Returns the updated catalog, the mutated
function item, and whether it was classified as a test function. -/
def TestsE.tryExtractFn (opts : MacroOpts) (t : TestsE) (item : ItemFnS) :
    Except (List String) (TestsE × ItemFnS × Bool) :=
  let r := extractTestAttrs opts item
  if r.1.isEmpty then .ok (t, r.2, false)
  else
    match validateSig item.sig with
    | .error e => .error e
    | .ok _ =>
        match t.registerInput item.sig.inputs with
        | .error e => .error e
        | .ok ri =>
            match ri.1.registerReturn item.sig.inputs ri.2 item.sig.output with
            | .error e => .error e
            | .ok rr =>
                match filterLifetimeParams item.sig.generics rr.2 with
                | .error e => .error e
                | .ok ltParams =>
                    .ok ({ rr.1 with
                           test_fns := rr.1.test_fns ++
                             [{ test_attrs := r.1, asyncness := item.sig.asyncness,
                                unsafety := item.sig.unsafety, ident := item.sig.ident,
                                lifetime_params := ltParams, inputs := item.sig.inputs,
                                output := item.sig.output }] },
                      r.2, true)

mutual
/-- An item of a module tree (`syn::Item`), restricted to the forms the
engine distinguishes: functions, inline modules, opaque (non-inline)
modules, generated glob imports, and anything else. -/
inductive ItemE where
  | fnItem (f : ItemFnS)
  | modInline (attrs : List Attr) (name : String) (content : ItemList)
  | modOpaque (attrs : List Attr) (name : String)
  | useGlob (supers : Nat)
  | otherItem

/-- A list of items (spelled as a mutual inductive with `ItemE`). -/
inductive ItemList where
  | nil
  | cons (head : ItemE) (tail : ItemList)
end

/-- Convert a Lean list of items into an `ItemList`. -/
def ItemList.ofList : List ItemE → ItemList
  | [] => .nil
  | x :: xs => .cons x (ItemList.ofList xs)

/-- The message for the first arity mismatch in `Tests::try_extract`. -/
def arityMismatchMsg (ident : String) (a n : Nat) : String :=
  "test function `" ++ ident ++ "` has " ++ Nat.repr a ++
    " generic parameters while others in the same module have " ++ Nat.repr n

/-- The item loop of `Tests::try_extract` (`extract.rs` lines 48-71):
process each function item, tracking the module-wide generic arity of
the test functions seen so far; the first mismatch aborts with an error
naming the function and both counts. -/
def TestsE.tryExtractLoop (opts : MacroOpts) (arity? : Option Nat) (t : TestsE) :
    ItemList → Except (List String) (TestsE × ItemList)
  | .nil => .ok (t, .nil)
  | .cons (.fnItem f) rest =>
      match t.tryExtractFn opts f with
      | .error e => .error e
      | .ok r =>
          if r.2.2 then
            let a := genericArity f.sig.generics
            match arity? with
            | none =>
                match TestsE.tryExtractLoop opts (some a) r.1 rest with
                | .error e => .error e
                | .ok rr => .ok (rr.1, .cons (.fnItem r.2.1) rr.2)
            | some n =>
                if a ≠ n then .error [arityMismatchMsg f.sig.ident a n]
                else
                  match TestsE.tryExtractLoop opts (some n) r.1 rest with
                  | .error e => .error e
                  | .ok rr => .ok (rr.1, .cons (.fnItem r.2.1) rr.2)
          else
            match TestsE.tryExtractLoop opts arity? r.1 rest with
            | .error e => .error e
            | .ok rr => .ok (rr.1, .cons (.fnItem r.2.1) rr.2)
  | .cons other rest =>
      match TestsE.tryExtractLoop opts arity? t rest with
      | .error e => .error e
      | .ok rr => .ok (rr.1, .cons other rr.2)

/-- `Tests::try_extract` from `extract.rs` (lines 37-73): only inline
modules are supported; their items are scanned by the loop. -/
def TestsE.tryExtract (opts : MacroOpts) : ItemE → Except (List String) (TestsE × ItemList)
  | .modInline _ _ content => TestsE.tryExtractLoop opts none {} content
  | _ => .error ["only inline modules are supported"]

theorem collectLifetimeParams_nil (params : List GenericParamS) :
    collectLifetimeParams [] params = .ok [] := by
  induction params with
  | nil => rfl
  | cons p rest ih => cases p <;> simp [collectLifetimeParams, ih]

/-- A generics clause with `j` lifetime parameters followed by `k` type
parameters. -/
def mkGenerics (j k : Nat) : GenericsS :=
  { params := (List.range j).map (fun i => .lifetimeP ("l" ++ Nat.repr i) []) ++
      (List.range k).map (fun i => .typeP ("T" ++ Nat.repr i)) }

theorem genericArity_mkGenerics (j k : Nat) : genericArity (mkGenerics j k) = k := by
  unfold genericArity mkGenerics
  rw [List.filter_append, List.length_append]
  have h1 : ((List.range j).map fun i =>
      GenericParamS.lifetimeP ("l" ++ Nat.repr i) []).filter isTypeConstParam = [] := by
    rw [List.filter_eq_nil_iff]
    intro a ha
    obtain ⟨i, -, rfl⟩ := List.mem_map.1 ha
    simp [isTypeConstParam]
  have h2 : ((List.range k).map fun i =>
      GenericParamS.typeP ("T" ++ Nat.repr i)).filter isTypeConstParam =
      ((List.range k).map fun i => GenericParamS.typeP ("T" ++ Nat.repr i)) := by
    rw [List.filter_eq_self]
    intro a ha
    obtain ⟨i, -, rfl⟩ := List.mem_map.1 ha
    simp [isTypeConstParam]
  rw [h1, h2]
  simp

/-- A `#[test]`-marked generic function with no arguments, no return
type, `j` lifetime parameters and `k` type parameters. -/
def mkTestFn (name : String) (j k : Nat) : ItemFnS :=
  { attrs := [{ path := "test" }], sig := { ident := name, generics := mkGenerics j k } }

/-- The `TestFn` record extracted from `mkTestFn`. -/
def mkTestFnE (n : String) : TestFnE :=
  { test_attrs := [{ path := "test" }], asyncness := false, unsafety := false,
    ident := n, lifetime_params := [], inputs := [], output := none }

theorem tryExtractFn_mkTestFn (t : TestsE) (n : String) (j k : Nat) :
    t.tryExtractFn MacroOpts.default (mkTestFn n j k) =
      .ok ({ t with test_fns := t.test_fns ++ [mkTestFnE n] },
        { mkTestFn n j k with attrs := [] }, true) := by
  have hat : extractTestAttrs MacroOpts.default (mkTestFn n j k) =
      ([{ path := "test" }], { mkTestFn n j k with attrs := [] }) := rfl
  have h2 : validateSig (mkTestFn n j k).sig = .ok () := rfl
  have hin : t.registerInput (mkTestFn n j k).sig.inputs = .ok (t, []) := rfl
  have hre : t.registerReturn (mkTestFn n j k).sig.inputs [] (mkTestFn n j k).sig.output =
      .ok (t, []) := rfl
  have h5 : filterLifetimeParams (mkGenerics j k) [] = .ok [] := by
    unfold filterLifetimeParams mkGenerics
    simp [checkWherePreds, collectLifetimeParams_nil]
  have hfl : filterLifetimeParams (mkTestFn n j k).sig.generics [] = .ok [] := h5
  simp only [TestsE.tryExtractFn, hat, h2, hin, hre, hfl, List.isEmpty_cons]
  rfl

/-- Claim C8: two test functions in one processing unit whose counts of
type-plus-constant generic parameters differ make extraction fail on the
second (first mismatching) function, with an error naming that
function's identifier and citing both counts; the numbers of lifetime
parameters (`j1`, `j2`) are arbitrary and excluded from the count. -/
theorem genericArity_mkTestFn (n : String) (j k : Nat) :
    genericArity (mkTestFn n j k).sig.generics = k :=
  genericArity_mkGenerics j k

theorem mkTestFn_ident (n : String) (j k : Nat) : (mkTestFn n j k).sig.ident = n := rfl

theorem C8_generic_arity_mismatch (n1 n2 : String) (j1 j2 k1 k2 : Nat) (h : k1 ≠ k2) :
    TestsE.tryExtract MacroOpts.default
      (.modInline [] "m" (.cons (.fnItem (mkTestFn n1 j1 k1))
        (.cons (.fnItem (mkTestFn n2 j2 k2)) .nil))) =
      .error [arityMismatchMsg n2 k2 k1] := by
  unfold TestsE.tryExtract
  simp only [TestsE.tryExtractLoop, tryExtractFn_mkTestFn, genericArity_mkTestFn,
    mkTestFn_ident, if_true]
  rw [if_pos (Ne.symm h)]

/-- Witness for C8 at arities 1 and 2: extraction fails citing the
second function `g` and both counts. -/
theorem C8_generic_arity_mismatch_witness :
    TestsE.tryExtract MacroOpts.default
      (.modInline [] "m" (.cons (.fnItem (mkTestFn "f" 0 1))
        (.cons (.fnItem (mkTestFn "g" 0 2)) .nil))) =
      .error [arityMismatchMsg "g" 2 1] :=
  C8_generic_arity_mismatch "f" "g" 0 0 1 2 (by decide)

theorem TestInputSignatureE.tryBuildIn_ident {id : String} {inputs : List FnArgS}
    {sig : TestInputSignatureE} (h : TestInputSignatureE.tryBuild id inputs = .ok sig) :
    sig.ident = id := by
  unfold TestInputSignatureE.tryBuild at h
  split at h
  · cases h
  · split at h
    · cases h
    · cases h; rfl

theorem TestReturnSignatureE.tryBuildRet_ident {id : String} {ty : Ty} {lts : List Lifetime}
    {sig : TestReturnSignatureE} (h : TestReturnSignatureE.tryBuild id ty lts = .ok sig) :
    sig.ident = id := by
  simp only [TestReturnSignatureE.tryBuild] at h
  split at h
  · cases h
  · cases h; rfl

theorem alookup_none_not_mem {α β : Type} [DecidableEq α] {l : List (α × β)} {k : α}
    (h : alookup l k = none) : k ∉ l.map Prod.fst := by
  induction l with
  | nil => simp
  | cons e rest ih =>
      unfold alookup at h
      by_cases hk : k = e.1
      · rw [if_pos hk] at h; cases h
      · rw [if_neg hk] at h
        simp only [List.map_cons, List.mem_cons]
        exact fun hc => hc.elim hk (fun hm => ih h hm)

theorem registerInput_spec {t : TestsE} {inputs : List FnArgS} {p : TestsE × List Lifetime}
    (h : t.registerInput inputs = .ok p) :
    (p.1 = t ∧ (inputs = [] ∨ alookup t.input_sigs inputs ≠ none)) ∨
    (inputs ≠ [] ∧ alookup t.input_sigs inputs = none ∧
      ∃ sig, sig.ident = argsName t.input_sigs.length ∧
        p.1 = { t with input_sigs := t.input_sigs ++ [(inputs, sig)] }) := by
  unfold TestsE.registerInput at h
  by_cases he : inputs.isEmpty
  · rw [if_pos he] at h
    cases h
    exact Or.inl ⟨rfl, Or.inl (List.isEmpty_iff.1 he)⟩
  · rw [if_neg he] at h
    split at h
    · rename_i sig hl
      cases h
      exact Or.inl ⟨rfl, Or.inr (by simp [hl])⟩
    · rename_i hl
      split at h
      · cases h
      · rename_i sig hb
        cases h
        exact Or.inr ⟨fun hn => he (by simp [hn]), hl,
          sig, TestInputSignatureE.tryBuildIn_ident hb, rfl⟩

theorem registerReturn_spec {t : TestsE} {inputs : List FnArgS} {lts : List Lifetime}
    {o : Option Ty} {p : TestsE × List Lifetime}
    (h : t.registerReturn inputs lts o = .ok p) :
    (p.1 = t) ∨
    (∃ ty sig, o = some ty ∧ alookup t.return_sigs ty = none ∧
      sig.ident = retName t.return_sigs.length ∧
      p.1 = { t with return_sigs := t.return_sigs ++ [(ty, sig)] }) := by
  unfold TestsE.registerReturn at h
  split at h
  · cases h; exact Or.inl rfl
  · rename_i ty
    split at h
    · cases h
      exact Or.inl rfl
    · rename_i hl
      split at h
      · cases h
      · rename_i sig hb
        cases h
        exact Or.inr ⟨ty, sig, rfl, hl, TestReturnSignatureE.tryBuildRet_ident hb, rfl⟩

theorem registerInput_return_sigs {t : TestsE} {inputs : List FnArgS}
    {p : TestsE × List Lifetime} (h : t.registerInput inputs = .ok p) :
    p.1.return_sigs = t.return_sigs := by
  rcases registerInput_spec h with ⟨h1, -⟩ | ⟨-, -, sig, -, h1⟩ <;> rw [h1]

theorem registerReturn_input_sigs {t : TestsE} {inputs : List FnArgS} {lts : List Lifetime}
    {o : Option Ty} {p : TestsE × List Lifetime} (h : t.registerReturn inputs lts o = .ok p) :
    p.1.input_sigs = t.input_sigs := by
  rcases registerReturn_spec h with h1 | ⟨ty, sig, -, -, -, h1⟩ <;> rw [h1]

theorem tryExtractFn_cases {opts : MacroOpts} {t : TestsE} {item : ItemFnS}
    {r : TestsE × ItemFnS × Bool} (h : t.tryExtractFn opts item = .ok r) :
    (r.1 = t ∧ r.2.2 = false) ∨
    (r.2.2 = true ∧ ∃ p1 p2, t.registerInput item.sig.inputs = .ok p1 ∧
      p1.1.registerReturn item.sig.inputs p1.2 item.sig.output = .ok p2 ∧
      r.1.input_sigs = p2.1.input_sigs ∧ r.1.return_sigs = p2.1.return_sigs) := by
  unfold TestsE.tryExtractFn at h
  by_cases he : (extractTestAttrs opts item).1.isEmpty
  · rw [if_pos he] at h
    cases h
    exact Or.inl ⟨rfl, rfl⟩
  · rw [if_neg he] at h
    split at h
    · cases h
    · split at h
      · cases h
      · rename_i p1 hri
        split at h
        · cases h
        · rename_i p2 hrr
          split at h
          · cases h
          · cases h
            exact Or.inr ⟨rfl, p1, p2, hri, hrr, rfl, rfl⟩

theorem string_append_right_inj {p a b : String} (h : p ++ a = p ++ b) : a = b := by
  have hd := congrArg String.data h
  rw [String.data_append, String.data_append] at hd
  exact String.ext (List.append_cancel_left hd)

theorem argsName_inj {i j : Nat} (h : argsName i = argsName j) : i = j :=
  nat_repr_inj (string_append_right_inj h)

theorem retName_inj {i j : Nat} (h : retName i = retName j) : i = j :=
  nat_repr_inj (string_append_right_inj h)

/-- Claim C3: the signature catalog deduplicates carrier declarations.
(1) Registering a test function whose parameter-list shape is already in
the catalog leaves the parameter-list catalog unchanged (the existing
entry is reused).  (2) The first registration of a new nonempty shape
appends exactly one entry, whose carrier name is the fresh counter-derived
`_generic_tests_Args{n}` for the current catalog size `n`.  (3) One
registration step preserves both catalog invariants: keys (shapes) are
pairwise distinct — so at most one carrier exists per distinct shape — and
the recorded carrier names are exactly `_generic_tests_Args0 ..
_generic_tests_Args{n-1}` (respectively `_generic_tests_Ret{i}` for return
shapes).  (4) Catalogs satisfying the naming invariant have pairwise
distinct (unit-unique) carrier names. -/
theorem C3_signature_catalog_dedup :
    (∀ (opts : MacroOpts) (t : TestsE) (item : ItemFnS) (r : TestsE × ItemFnS × Bool),
      alookup t.input_sigs item.sig.inputs ≠ none →
      t.tryExtractFn opts item = .ok r → r.1.input_sigs = t.input_sigs) ∧
    (∀ (opts : MacroOpts) (t : TestsE) (item : ItemFnS) (r : TestsE × ItemFnS × Bool),
      alookup t.input_sigs item.sig.inputs = none → item.sig.inputs ≠ [] →
      t.tryExtractFn opts item = .ok r → r.2.2 = true →
      ∃ sig, sig.ident = argsName t.input_sigs.length ∧
        r.1.input_sigs = t.input_sigs ++ [(item.sig.inputs, sig)]) ∧
    (∀ (opts : MacroOpts) (t : TestsE) (item : ItemFnS) (r : TestsE × ItemFnS × Bool),
      t.tryExtractFn opts item = .ok r →
      ((t.input_sigs.map Prod.fst).Nodup → (r.1.input_sigs.map Prod.fst).Nodup) ∧
      ((t.return_sigs.map Prod.fst).Nodup → (r.1.return_sigs.map Prod.fst).Nodup) ∧
      (t.input_sigs.map (fun e => e.2.ident) =
          (List.range t.input_sigs.length).map argsName →
        r.1.input_sigs.map (fun e => e.2.ident) =
          (List.range r.1.input_sigs.length).map argsName) ∧
      (t.return_sigs.map (fun e => e.2.ident) =
          (List.range t.return_sigs.length).map retName →
        r.1.return_sigs.map (fun e => e.2.ident) =
          (List.range r.1.return_sigs.length).map retName)) ∧
    (∀ t : TestsE,
      (t.input_sigs.map (fun e => e.2.ident) =
          (List.range t.input_sigs.length).map argsName →
        (t.input_sigs.map (fun e => e.2.ident)).Nodup) ∧
      (t.return_sigs.map (fun e => e.2.ident) =
          (List.range t.return_sigs.length).map retName →
        (t.return_sigs.map (fun e => e.2.ident)).Nodup)) := by
  have hInput : ∀ (opts : MacroOpts) (t : TestsE) (item : ItemFnS)
      (r : TestsE × ItemFnS × Bool), t.tryExtractFn opts item = .ok r →
      r.1.input_sigs = t.input_sigs ∨
      (alookup t.input_sigs item.sig.inputs = none ∧ item.sig.inputs ≠ [] ∧
        ∃ sig, sig.ident = argsName t.input_sigs.length ∧
          r.1.input_sigs = t.input_sigs ++ [(item.sig.inputs, sig)]) := by
    intro opts t item r h
    rcases tryExtractFn_cases h with ⟨h1, -⟩ | ⟨-, p1, p2, hri, hrr, hi, -⟩
    · exact Or.inl (by rw [h1])
    · have hp2 : p2.1.input_sigs = p1.1.input_sigs := registerReturn_input_sigs hrr
      rcases registerInput_spec hri with ⟨h1, -⟩ | ⟨hne, hl, sig, hid, h1⟩
      · exact Or.inl (by rw [hi, hp2, h1])
      · exact Or.inr ⟨hl, hne, sig, hid, by rw [hi, hp2, h1]⟩
  have hReturn : ∀ (opts : MacroOpts) (t : TestsE) (item : ItemFnS)
      (r : TestsE × ItemFnS × Bool), t.tryExtractFn opts item = .ok r →
      r.1.return_sigs = t.return_sigs ∨
      (∃ ty sig, alookup t.return_sigs ty = none ∧
        sig.ident = retName t.return_sigs.length ∧
        r.1.return_sigs = t.return_sigs ++ [(ty, sig)]) := by
    intro opts t item r h
    rcases tryExtractFn_cases h with ⟨h1, -⟩ | ⟨-, p1, p2, hri, hrr, -, hre⟩
    · exact Or.inl (by rw [h1])
    · have hp1r : p1.1.return_sigs = t.return_sigs := registerInput_return_sigs hri
      rcases registerReturn_spec hrr with h1 | ⟨ty, sig, -, hl, hid, h1⟩
      · exact Or.inl (by rw [hre, h1, hp1r])
      · refine Or.inr ⟨ty, sig, by rw [← hp1r]; exact hl, by rw [← hp1r]; exact hid,
          by rw [hre, h1, hp1r]⟩
  refine ⟨?_, ?_, ?_, ?_⟩
  · intro opts t item r hl h
    rcases hInput opts t item r h with h1 | ⟨hnone, -, -⟩
    · exact h1
    · exact absurd hnone hl
  · intro opts t item r hl hne h htrue
    rcases hInput opts t item r h with h1 | ⟨-, -, sig, hid, happ⟩
    · exfalso
      rcases tryExtractFn_cases h with ⟨-, hf⟩ | ⟨-, p1, p2, hri, hrr, hi, -⟩
      · rw [htrue] at hf; cases hf
      · have hp2 : p2.1.input_sigs = p1.1.input_sigs := registerReturn_input_sigs hrr
        rcases registerInput_spec hri with ⟨-, hor⟩ | ⟨-, -, sig, -, h2⟩
        · rcases hor with hemp | hsome
          · exact hne hemp
          · exact hsome hl
        · rw [hi, hp2, h2] at h1
          have hlen := congrArg List.length h1
          simp at hlen
    · exact ⟨sig, hid, happ⟩
  · intro opts t item r h
    refine ⟨?_, ?_, ?_, ?_⟩
    · intro hnd
      rcases hInput opts t item r h with h1 | ⟨hnone, -, sig, -, happ⟩
      · rw [h1]; exact hnd
      · rw [happ, List.map_append]
        refine List.Nodup.append hnd (by simp) ?_
        intro a ha hb
        simp only [List.map_cons, List.map_nil, List.mem_singleton] at hb
        exact alookup_none_not_mem hnone (hb ▸ ha)
    · intro hnd
      rcases hReturn opts t item r h with h1 | ⟨ty, sig, hnone, -, happ⟩
      · rw [h1]; exact hnd
      · rw [happ, List.map_append]
        refine List.Nodup.append hnd (by simp) ?_
        intro a ha hb
        simp only [List.map_cons, List.map_nil, List.mem_singleton] at hb
        exact alookup_none_not_mem hnone (hb ▸ ha)
    · intro hnames
      rcases hInput opts t item r h with h1 | ⟨-, -, sig, hid, happ⟩
      · rw [h1]; exact hnames
      · rw [happ, List.map_append, List.length_append, hnames]
        simp [List.range_succ, hid]
    · intro hnames
      rcases hReturn opts t item r h with h1 | ⟨ty, sig, -, hid, happ⟩
      · rw [h1]; exact hnames
      · rw [happ, List.map_append, List.length_append, hnames]
        simp [List.range_succ, hid]
  · intro t
    constructor
    · intro hnames
      rw [hnames]
      exact List.Nodup.map (fun a b => argsName_inj) (List.nodup_range _)
    · intro hnames
      rw [hnames]
      exact List.Nodup.map (fun a b => retName_inj) (List.nodup_range _)

/-- A concrete argument `x: &u8`. -/
def c3arg : FnArgS := .typed [] (.identPat false false [] false "x") (.ref none (.path "u8" []))

/-- A concrete `#[test]` function `fn f(x: &u8)`. -/
def c3fn : ItemFnS := { attrs := [{ path := "test" }], sig := { ident := "f", inputs := [c3arg] } }

/-- The catalog entry for `c3fn`'s parameter-list shape. -/
def c3sig : TestInputSignatureE :=
  { ident := argsName 0, lifetimes := ["_generic_tests_0"],
    args := [{ attrs := [], ident := "x", argTy := .ref none (.path "u8" []),
               fieldTy := .ref (some "_generic_tests_0") (.path "u8" []) }] }

/-- A catalog that already holds `c3fn`'s shape. -/
def c3t : TestsE := { input_sigs := [([c3arg], c3sig)] }

/-- The extracted record of `c3fn`. -/
def c3fnE : TestFnE :=
  { test_attrs := [{ path := "test" }], asyncness := false, unsafety := false,
    ident := "f", lifetime_params := [], inputs := [c3arg], output := none }

/-- Result of registering `c3fn` against `c3t`. -/
def c3r : TestsE × ItemFnS × Bool :=
  ({ c3t with test_fns := [c3fnE] }, { c3fn with attrs := [] }, true)

/-- Witness for C3 at a concrete catalog: registering a second function
with an already-registered parameter-list shape reuses the entry and
leaves the catalog unchanged. -/
theorem C3_signature_catalog_dedup_witness :
    TestsE.tryExtractFn MacroOpts.default c3t c3fn = .ok c3r ∧
    c3r.1.input_sigs = c3t.input_sigs := by
  have hok : TestsE.tryExtractFn MacroOpts.default c3t c3fn = .ok c3r := by rfl
  exact ⟨hok, C3_signature_catalog_dedup.1 MacroOpts.default c3t c3fn c3r (by decide) hok⟩

/-! The expand stage: the tree walker / instantiator from `expand.rs`. -/

/-- `TEST_ATTRS` from `expand.rs`. -/
def TEST_ATTRS : List String := ["test", "ignore", "should_panic", "bench"]

/-- `COPIED_ATTRS` from `expand.rs`. -/
def COPIED_ATTRS : List String := ["cfg"]

/-- The removal loop of `extract_test_attrs` from `expand.rs` (lines
39-49): split the attribute list into the marker attributes and the
remaining attributes, both in original order, exactly as the in-place
`remove` loop does. -/
def removeTestAttrsX : List Attr → List Attr × List Attr
  | [] => ([], [])
  | a :: rest =>
      let r := removeTestAttrsX rest
      if TEST_ATTRS.contains a.path then (a :: r.1, r.2) else (r.1, a :: r.2)

/-- `extract_test_attrs` from `expand.rs` (lines 39-58): remove every
marker attribute from the function; if any was found, append copies of
the mirrored (`cfg`) attributes still on the function. -/
def extractTestAttrsX (item : ItemFnS) : List Attr × ItemFnS :=
  (if (removeTestAttrsX item.attrs).1.isEmpty then (removeTestAttrsX item.attrs).1
   else (removeTestAttrsX item.attrs).1 ++
     (removeTestAttrsX item.attrs).2.filter (fun a => COPIED_ATTRS.contains a.path),
   { item with attrs := (removeTestAttrsX item.attrs).2 })

/-- `TestFn` from `expand.rs` (lines 31-37). -/
structure TestFnX where
  test_attrs : List Attr
  name : String
  inputs : List FnArgS
  output : Option Ty
  args : List String
  deriving DecidableEq

/-- The argument-ident collection of `TestFn::try_extract` (`expand.rs`
lines 64-81): identifier patterns yield their ident; any other pattern
or a receiver is an error, reported at the first offender. -/
def fnArgIdents : List FnArgS → Except (List String) (List String)
  | [] => .ok []
  | .typed _ pat _ :: rest =>
      match pat with
      | .identPat _ _ _ _ ident =>
          match fnArgIdents rest with
          | .error e => .error e
          | .ok ids => .ok (ident :: ids)
      | _ => .error ["unsupported pattern in test function input"]
  | .receiver :: _ => .error ["unexpected receiver argument in a test function"]

/-- `TestFn::try_extract` from `expand.rs` (lines 61-92). -/
def TestFnX.tryExtract (item : ItemFnS) : Except (List String) (Option TestFnX × ItemFnS) :=
  let r := extractTestAttrsX item
  if r.1.isEmpty then .ok (none, r.2)
  else
    match fnArgIdents item.sig.inputs with
    | .error e => .error e
    | .ok args =>
        .ok (some { test_attrs := r.1, name := item.sig.ident, inputs := item.sig.inputs,
                    output := item.sig.output, args := args }, r.2)

/-- The item loop of `extract_test_fns` from `expand.rs` (lines
100-107): scan every function item, aborting at the first error. -/
def extractTestFnsLoop : ItemList → Except (List String) (List TestFnX × ItemList)
  | .nil => .ok ([], .nil)
  | .cons (.fnItem f) rest =>
      match TestFnX.tryExtract f with
      | .error e => .error e
      | .ok r =>
          match extractTestFnsLoop rest with
          | .error e => .error e
          | .ok rr =>
              match r.1 with
              | some tf => .ok (tf :: rr.1, .cons (.fnItem r.2) rr.2)
              | none => .ok (rr.1, .cons (.fnItem r.2) rr.2)
  | .cons other rest =>
      match extractTestFnsLoop rest with
      | .error e => .error e
      | .ok rr => .ok (rr.1, .cons other rr.2)

/-- `extract_test_fns` from `expand.rs` (lines 94-109). -/
def extractTestFns : ItemE → Except (List String) (List TestFnX × ItemList)
  | .modInline _ _ content => extractTestFnsLoop content
  | _ => .error ["only inline modules are supported"]

/-- The `instantiate_tests` marker attribute carrying pre-parsed
concrete arguments. -/
def instAttr (args : List String) : Attr :=
  { path := "instantiate_tests", inner := false, instArgs := args }

/-- `InstArguments::try_extract` from `expand.rs` (lines 117-134): find
the first `instantiate_tests` attribute; an inner-style one is an error
(and is left in place); an outer-style one is removed and its pre-parsed
arguments returned. -/
def instArgsExtract : List Attr → Except (List String) (Option (List String × List Attr))
  | [] => .ok none
  | a :: rest =>
      if a.path = "instantiate_tests" then
        if a.inner then .error ["cannot be an inner attribute"]
        else .ok (some (a.instArgs, rest))
      else
        match instArgsExtract rest with
        | .ok (some r) => .ok (some (r.1, a :: r.2))
        | .ok none => .ok none
        | .error e => .error e

/-- Error for a non-inline marker module. -/
def mustBeInlineMsg : String := "module to instantiate tests into must be inline"

/-- Error for a non-empty marker module. -/
def mustBeEmptyMsg : String := "module to instantiate tests into must be empty"

/-- One forwarding function generated by `Instantiator::instantiate_tests`
(`expand.rs` lines 192-206): same name, the collected attributes, the
reproduced parameter list and return type, and a body calling the
original through `depth` `super::` segments with the marker's concrete
generic arguments. -/
def forwardFnX (depth : Nat) (genArgs : List String) (t : TestFnX) : ItemE :=
  .fnItem { attrs := t.test_attrs,
            sig := { ident := t.name, inputs := t.inputs, output := t.output },
            body := some { supers := depth, callee := t.name, genericArgs := genArgs,
                           argNames := t.args, awaited := false } }

/-- The content generated into a valid marker module by
`Instantiator::instantiate_tests` (`expand.rs` lines 165-206): a glob
use of the parent scope first, then (at depth above one) a glob use
of the root, then one forwarding function per test function. -/
def genContent (depth : Nat) (genArgs : List String) (tests : List TestFnX) : ItemList :=
  ItemList.ofList ([ItemE.useGlob 1] ++
    (if depth > 1 then [ItemE.useGlob depth] else []) ++
    tests.map (forwardFnX depth genArgs))

mutual
/-- `Instantiator::visit_item_mod_mut` from `expand.rs` (lines 210-242),
extended to all items (the visitor leaves non-module items unchanged):
a module with a valid marker and empty inline content is populated; a
non-empty one records the "must be empty" error; a non-inline one
records the "must be inline" error; a module without a marker is
traversed at depth+1; an invalid marker attribute records its error and
stops descent into that module. -/
def visitItemMod (tests : List TestFnX) (depth : Nat) (errs : List String) :
    ItemE → List String × ItemE
  | .modInline attrs name content =>
      match instArgsExtract attrs with
      | .ok (some r) =>
          match content with
          | .nil => (errs, .modInline r.2 name (genContent depth r.1 tests))
          | c => (errs ++ [mustBeEmptyMsg], .modInline r.2 name c)
      | .ok none =>
          let rr := visitItems tests (depth + 1) errs content
          (rr.1, .modInline attrs name rr.2)
      | .error e => (errs ++ e, .modInline attrs name content)
  | .modOpaque attrs name =>
      match instArgsExtract attrs with
      | .ok (some r) => (errs ++ [mustBeInlineMsg], .modOpaque r.2 name)
      | .ok none => (errs, .modOpaque attrs name)
      | .error e => (errs ++ e, .modOpaque attrs name)
  | other => (errs, other)

/-- Visit the items of a module in order, threading the error record. -/
def visitItems (tests : List TestFnX) (depth : Nat) (errs : List String) :
    ItemList → List String × ItemList
  | .nil => (errs, .nil)
  | .cons item rest =>
      let r1 := visitItemMod tests depth errs item
      let r2 := visitItems tests depth r1.1 rest
      (r2.1, .cons r1.2 r2.2)
end

/-- The traversal of `instantiate` (`expand.rs` lines 142-148): the
default visit of the root module dispatches the instantiating visitor on
each of its items, starting at depth 1; the mutated tree and the
accumulated error record are both returned. -/
def instantiateRun (tests : List TestFnX) : ItemE → List String × ItemE
  | .modInline attrs name content =>
      let r := visitItems tests 1 [] content
      (r.1, .modInline attrs name r.2)
  | other => ([], other)

/-- `instantiate` from `expand.rs` (lines 142-153): run the traversal,
then fail iff the error record is nonempty. -/
def instantiate (tests : List TestFnX) (ast : ItemE) : Except (List String) ItemE :=
  let r := instantiateRun tests ast
  if r.1.isEmpty then .ok r.2 else .error r.1

/-- `transform` from `expand.rs` (lines 24-27): extract the test
functions, then instantiate the markers. -/
def transform : ItemE → Except (List String) ItemE
  | .modInline attrs name content =>
      match extractTestFnsLoop content with
      | .error e => .error e
      | .ok r => instantiate r.1 (.modInline attrs name r.2)
  | _ => .error ["only inline modules are supported"]

/-- An empty inline module annotated with `#[instantiate_tests(<args>)]`. -/
def markerMod (args : List String) : ItemE := .modInline [instAttr args] "inst" .nil

/-- Wrap an item in `k` nested plain inline modules. -/
def nestK : Nat → ItemE → ItemE
  | 0, m => m
  | k + 1, m => .modInline [] "outer" (.cons (nestK k m) .nil)

/-- Count the function items of an item list. -/
def ItemList.countFns : ItemList → Nat
  | .nil => 0
  | .cons (.fnItem _) rest => rest.countFns + 1
  | .cons _ rest => rest.countFns

/-- Is the item a function item? -/
def isFnItem : ItemE → Bool
  | .fnItem _ => true
  | _ => false

theorem countFns_ofList (l : List ItemE) :
    (ItemList.ofList l).countFns = (l.filter isFnItem).length := by
  induction l with
  | nil => rfl
  | cons x rest ih => cases x <;> simp [ItemList.ofList, ItemList.countFns, isFnItem, ih]

theorem countFns_genContent (depth : Nat) (genArgs : List String) (tests : List TestFnX) :
    (genContent depth genArgs tests).countFns = tests.length := by
  have hmap : (tests.map (forwardFnX depth genArgs)).filter isFnItem =
      tests.map (forwardFnX depth genArgs) := by
    rw [List.filter_eq_self]
    intro a ha
    obtain ⟨t, -, rfl⟩ := List.mem_map.1 ha
    rfl
  unfold genContent
  rw [countFns_ofList, List.filter_append, List.filter_append, hmap]
  by_cases hd : depth > 1 <;> simp [hd, isFnItem]

theorem visitItemMod_nest (tests : List TestFnX) (args : List String) (K : Nat) :
    ∀ (depth : Nat) (errs : List String),
      visitItemMod tests depth errs (nestK K (markerMod args)) =
        (errs, nestK K (.modInline [] "inst" (genContent (depth + K) args tests))) := by
  induction K with
  | zero =>
      intro depth errs
      simp [nestK, markerMod, visitItemMod, instArgsExtract, instAttr]
  | succ k ih =>
      intro depth errs
      have harith : depth + 1 + k = depth + (k + 1) := by omega
      simp only [nestK, visitItemMod, instArgsExtract, visitItems, ih (depth + 1) errs, harith]

/-- The function items of an item list, in order. -/
def ItemList.fnsOf : ItemList → List ItemE
  | .nil => []
  | .cons (.fnItem f) rest => .fnItem f :: rest.fnsOf
  | .cons _ rest => rest.fnsOf

theorem fnsOf_ofList (l : List ItemE) :
    (ItemList.ofList l).fnsOf = l.filter isFnItem := by
  induction l with
  | nil => rfl
  | cons x rest ih => cases x <;> simp [ItemList.ofList, ItemList.fnsOf, isFnItem, ih]

theorem fnsOf_genContent (depth : Nat) (genArgs : List String) (tests : List TestFnX) :
    (genContent depth genArgs tests).fnsOf = tests.map (forwardFnX depth genArgs) := by
  have hmap : (tests.map (forwardFnX depth genArgs)).filter isFnItem =
      tests.map (forwardFnX depth genArgs) := by
    rw [List.filter_eq_self]
    intro a ha
    obtain ⟨t, -, rfl⟩ := List.mem_map.1 ha
    rfl
  unfold genContent
  rw [fnsOf_ofList, List.filter_append, List.filter_append, hmap]
  by_cases hd : depth > 1 <;> simp [hd, isFnItem]

/-- Claim C4: a valid instantiation marker at nesting depth `K + 1` below
the root (markers are recognized at every depth: `K` ranges over all
naturals) is populated with the glob imports followed by exactly one
forwarding function per test function of the unit's root — the marker
module's function-item count equals the number of test functions — and
each forwarding function's body calls the original function through a
relative path of exactly `K + 1` `super::` segments, with the marker's
concrete arguments and the original argument names. -/
theorem C4_marker_instantiation_depth (K : Nat) (tests : List TestFnX) (args : List String) :
    instantiate tests (.modInline [] "root" (.cons (nestK K (markerMod args)) .nil)) =
      .ok (.modInline [] "root" (.cons (nestK K
        (.modInline [] "inst" (genContent (K + 1) args tests))) .nil)) ∧
    (genContent (K + 1) args tests).countFns = tests.length ∧
    List.Forall₂
      (fun (i : ItemE) (t : TestFnX) => ∃ f, i = ItemE.fnItem f ∧ f.sig.ident = t.name ∧
        f.body = some { supers := K + 1, callee := t.name, genericArgs := args,
                        argNames := t.args, awaited := false })
      (genContent (K + 1) args tests).fnsOf tests := by
  refine ⟨?_, countFns_genContent _ _ _, ?_⟩
  · have hv := visitItemMod_nest tests args K 1 []
    have harith : 1 + K = K + 1 := by omega
    rw [harith] at hv
    simp [instantiate, instantiateRun, visitItems, hv]
  · rw [fnsOf_genContent]
    induction tests with
    | nil => exact List.Forall₂.nil
    | cons t rest ih =>
        exact List.Forall₂.cons ⟨_, rfl, rfl, rfl⟩ ih

/-- Claim C7: a marker module with any pre-existing declaration records
the "must be empty" error scoped to it (its marker attribute removed,
its content untouched and not descended into), a non-inline marker
module records the "must be inline" error, and traversal continues: the
valid sibling marker after both is still populated.  The junk item, the
marker arguments and the test list are arbitrary. -/
theorem C7_marker_module_errors (junk : ItemE) (a1 a2 a3 : List String)
    (tests : List TestFnX) :
    instantiateRun tests (.modInline [] "root"
      (.cons (.modInline [instAttr a1] "bad" (.cons junk .nil))
      (.cons (.modOpaque [instAttr a2] "opq")
      (.cons (.modInline [instAttr a3] "good" .nil) .nil)))) =
      ([mustBeEmptyMsg, mustBeInlineMsg],
       .modInline [] "root"
        (.cons (.modInline [] "bad" (.cons junk .nil))
        (.cons (.modOpaque [] "opq")
        (.cons (.modInline [] "good" (genContent 1 a3 tests)) .nil)))) := by
  rfl

/-- A `#[test]` function with a wildcard argument pattern (a signature
error). -/
def c5wild : ItemFnS :=
  { attrs := [{ path := "test" }],
    sig := { ident := "f", inputs := [.typed [] .wild (.path "u8" [])] } }

/-- A `#[test]` function with a receiver argument (a different signature
error). -/
def c5recv : ItemFnS :=
  { attrs := [{ path := "test" }], sig := { ident := "g", inputs := [.receiver] } }

/-- Claim C5 counterexample: signature errors are *not* aggregated
across functions.  A unit with two invalid test functions fails with
only the first function's diagnostic; the second function's diagnostic
("unexpected receiver argument in a test function") is not surfaced, so
the unit does not accumulate all errors over a complete pass. -/
theorem C5_error_aggregation_counterexample :
    TestsE.tryExtract MacroOpts.default
      (.modInline [] "m" (.cons (.fnItem c5wild) (.cons (.fnItem c5recv) .nil))) =
      .error ["wildcard pattern not allowed in generic test function input"] ∧
    "unexpected receiver argument in a test function" ∉
      ["wildcard pattern not allowed in generic test function input"] := by
  exact ⟨rfl, by decide⟩

/-- Claim C5 (amended): marker errors are recoverable per marker — the
traversal continues past each failing marker, all marker errors are
combined into one record and surfaced together only after the complete
pass (two invalid markers both report, and a valid sibling after them is
still populated) — but signature/extraction errors on functions abort
the unit at the first failing function: extraction stops before even
looking at any later item (the second item `g` below is arbitrary). -/
theorem C5_error_aggregation_amended :
    (∀ (junk1 junk2 : ItemE) (a1 a2 a3 : List String) (tests : List TestFnX),
      instantiateRun tests (.modInline [] "root"
        (.cons (.modInline [instAttr a1] "bad1" (.cons junk1 .nil))
        (.cons (.modInline [instAttr a2] "bad2" (.cons junk2 .nil))
        (.cons (.modInline [instAttr a3] "good" .nil) .nil)))) =
        ([mustBeEmptyMsg, mustBeEmptyMsg],
         .modInline [] "root"
          (.cons (.modInline [] "bad1" (.cons junk1 .nil))
          (.cons (.modInline [] "bad2" (.cons junk2 .nil))
          (.cons (.modInline [] "good" (genContent 1 a3 tests)) .nil))))) ∧
    (∀ g : ItemE, TestsE.tryExtract MacroOpts.default
        (.modInline [] "m" (.cons (.fnItem c5wild) (.cons g .nil))) =
      .error ["wildcard pattern not allowed in generic test function input"]) := by
  exact ⟨fun junk1 junk2 a1 a2 a3 tests => rfl, fun g => rfl⟩

theorem removeTestAttrsX_eq (attrs : List Attr) :
    removeTestAttrsX attrs = (attrs.filter (fun a => TEST_ATTRS.contains a.path),
      attrs.filter (fun a => !(TEST_ATTRS.contains a.path))) := by
  induction attrs with
  | nil => rfl
  | cons a rest ih =>
      by_cases h : a.path ∈ TEST_ATTRS <;>
        simp [removeTestAttrsX, ih, h]

/-- Claim C9: classification mutates the attribute list in place so that
exactly the marker attributes (paths in the default set {test, bench,
ignore, should_panic}) are removed — the surviving list is the original
minus the markers, order preserved — and the collected list (replicated
onto every forwarding function) is the markers followed by copies of the
mirrored attributes (default {cfg}) that remain in place; a function
with zero marker attributes keeps its attribute list entirely unchanged
and is not treated as a test case.  The `expand.rs` marker and mirrored
sets coincide with the `options.rs` defaults. -/
theorem C9_attribute_classification :
    (∀ item : ItemFnS,
      (extractTestAttrsX item).2.attrs =
        item.attrs.filter (fun a => !(TEST_ATTRS.contains a.path))) ∧
    (∀ item : ItemFnS, item.attrs.filter (fun a => TEST_ATTRS.contains a.path) ≠ [] →
      (extractTestAttrsX item).1 =
        item.attrs.filter (fun a => TEST_ATTRS.contains a.path) ++
          (item.attrs.filter (fun a => !(TEST_ATTRS.contains a.path))).filter
            (fun a => COPIED_ATTRS.contains a.path)) ∧
    (∀ item : ItemFnS, item.attrs.filter (fun a => TEST_ATTRS.contains a.path) = [] →
      TestFnX.tryExtract item = .ok (none, item)) ∧
    TEST_ATTRS = DEFAULT_TEST_ATTRS ∧ COPIED_ATTRS = DEFAULT_COPIED_ATTRS := by
  refine ⟨?_, ?_, ?_, rfl, rfl⟩
  · intro item
    show ((removeTestAttrsX item.attrs).2 : List Attr) = _
    rw [removeTestAttrsX_eq]
  · intro item h
    have hne : (item.attrs.filter (fun a => TEST_ATTRS.contains a.path)).isEmpty ≠ true :=
      fun hh => h (List.isEmpty_iff.1 hh)
    unfold extractTestAttrsX
    rw [removeTestAttrsX_eq]
    rw [if_neg hne]
  · intro item h
    obtain ⟨attrs, sg, bd⟩ := item
    have hall : attrs.filter (fun a => !(TEST_ATTRS.contains a.path)) = attrs := by
      rw [List.filter_eq_self]
      intro a ha
      have hn := List.filter_eq_nil_iff.1 h a ha
      simpa using hn
    have hx : extractTestAttrsX ⟨attrs, sg, bd⟩ = ([], ⟨attrs, sg, bd⟩) := by
      unfold extractTestAttrsX
      rw [removeTestAttrsX_eq]
      rw [show (ItemFnS.mk attrs sg bd).attrs = attrs from rfl, h, hall]
      rfl
    unfold TestFnX.tryExtract
    rw [hx]
    rfl

/-- A function with only non-marker attributes. -/
def c9item : ItemFnS :=
  { attrs := [{ path := "cfg" }, { path := "allow" }], sig := { ident := "plain" } }

/-- Witness for C9: a function with only a `cfg` and an `allow`
attribute is not classified as a test case and is returned unchanged. -/
theorem C9_attribute_classification_witness :
    TestFnX.tryExtract c9item = .ok (none, c9item) :=
  C9_attribute_classification.2.2.1 c9item (by rfl)

/-- The argument identifiers of a validated parameter list (generation
side; invalid patterns were already rejected during extraction). -/
def fnArgNames : List FnArgS → List String
  | [] => []
  | .typed _ (.identPat _ _ _ _ ident) _ :: rest => ident :: fnArgNames rest
  | _ :: rest => fnArgNames rest

/-- Modelled from the spec: the forwarding-function generation of the
signature-carrying pipeline — the expand stage that consumes
`extract::TestFn` is not among the sources; only its input data
structure (`TestFn` in `extract.rs`, with its `asyncness`/`unsafety`
fields) and the crate's async tests witness it.  Per §4.5 of the spec,
each generated forwarding declaration has the same name, the collected
attributes, mirrored `async`/`unsafe` qualifiers, the parameter list
reproduced with the original (unresolved) types, and a body that calls
the original through the accumulated `super::` path with the marker's
concrete arguments, awaiting the value first when the function is
asynchronous. -/
def instantiateTestFnFull (depth : Nat) (genArgs : List String) (t : TestFnE) : ItemFnS :=
  { attrs := t.test_attrs,
    sig := { asyncness := t.asyncness, unsafety := t.unsafety, ident := t.ident,
             inputs := t.inputs, output := t.output },
    body := some { supers := depth, callee := t.ident, genericArgs := genArgs,
                   argNames := fnArgNames t.inputs, awaited := t.asyncness } }

/-- Modelled from the spec: one forwarding declaration per test function
of the unit, in order. -/
def instantiateTestsFull (depth : Nat) (genArgs : List String) (tests : List TestFnE) :
    List ItemFnS :=
  tests.map (instantiateTestFnFull depth genArgs)

/-- Claim C6: each generated forwarding function mirrors its original's
`async` and `unsafe` qualifiers, carries the original's collected
attributes, reproduces the original (unresolved) parameter list and
return type, and its body awaits the inner call exactly when the
function is asynchronous; one forwarding function is generated per test
function. -/
theorem C6_async_unsafe_mirroring (depth : Nat) (genArgs : List String)
    (tests : List TestFnE) :
    (instantiateTestsFull depth genArgs tests).length = tests.length ∧
    List.Forall₂
      (fun (g : ItemFnS) (t : TestFnE) =>
        g.sig.asyncness = t.asyncness ∧ g.sig.unsafety = t.unsafety ∧
        g.sig.inputs = t.inputs ∧ g.sig.output = t.output ∧
        g.attrs = t.test_attrs ∧
        ∃ b, g.body = some b ∧ b.awaited = t.asyncness ∧ b.callee = t.ident ∧
          b.supers = depth)
      (instantiateTestsFull depth genArgs tests) tests := by
  refine ⟨List.length_map _ _, ?_⟩
  unfold instantiateTestsFull
  induction tests with
  | nil => exact List.Forall₂.nil
  | cons t rest ih =>
      exact List.Forall₂.cons ⟨rfl, rfl, rfl, rfl, rfl, _, rfl, rfl, rfl, rfl⟩ ih
